import Mathlib

/-!
Verification of the roadmap generation pipeline.

Shallow embedding of `scripts/roadmap/generate.py` and
`scripts/roadmap/create_github_issues.py`, with theorems settling the
specification claims about the Task Loader, Document Renderer, Tabular
Exporter and Issue Publisher.

JSON values (the result of `json.load` in Python) are modelled by the
inductive `Json`; the Python value `None` is `Json.null`.  Exceptions
raised by the scripts (`AttributeError` from calling `.strip()` or
`.get()` on a value that lacks the method, `TypeError` from iterating a
non-iterable, `KeyError` from subscripting) are modelled with
`Except PyErr`.
-/

set_option maxRecDepth 10000

namespace Roadmap

/-- A parsed JSON value, as produced by `json.load` in Python.
Numbers are modelled as integers (no claim depends on float values). -/
inductive Json where
  | null : Json
  | bool (b : Bool) : Json
  | num (n : Int) : Json
  | str (s : String) : Json
  | arr (xs : List Json) : Json
  | obj (fields : List (String × Json)) : Json

/-- Python exceptions the scripts can raise while normalizing tasks. -/
inductive PyErr where
  | attributeError : PyErr
  | typeError : PyErr
  | keyError : PyErr
deriving DecidableEq

/-- Python truthiness of a value (`bool(v)`): `None`, `False`, `0`, `""`,
`[]`, `{}` are falsy. -/
def pyTruthy : Json → Bool
  | .null => false
  | .bool b => b
  | .num n => n != 0
  | .str s => s != ""
  | .arr [] => false
  | .arr (_ :: _) => true
  | .obj [] => false
  | .obj (_ :: _) => true

/-- Python evaluation of `a or b`: the first operand if truthy, else the second. -/
def pyOr (a b : Json) : Json :=
  if pyTruthy a then a else b

/-- Is the value a Python `str`? -/
def Json.isStr : Json → Bool
  | .str _ => true
  | _ => false

/-- Is the value a Python `dict` (`isinstance(t, dict)`)? -/
def Json.isObj : Json → Bool
  | .obj _ => true
  | _ => false

/-- First binding of `k` in an association list (Python dicts parsed from
JSON have unique keys; on duplicates the first binding is used). -/
def alistFind (k : String) : List (String × Json) → Option Json
  | [] => none
  | (k', v) :: rest => if k' = k then some v else alistFind k rest

/-- `t.get(k)` on a dict: the stored value, or `None` when absent.
Only ever applied to dicts in the scripts (guarded by `isinstance`). -/
def jget (t : Json) (k : String) : Json :=
  match t with
  | .obj fs => (alistFind k fs).getD .null
  | _ => .null

/-- `t.get(k, dflt)` on a dict, with an explicit default. -/
def jgetD (t : Json) (k : String) (dflt : Json) : Json :=
  match t with
  | .obj fs => (alistFind k fs).getD dflt
  | _ => dflt

/-- `data.get("tasks", data)`: dict lookup with the whole document as the
default.  On any non-dict (in particular a bare JSON array) Python raises
an `AttributeError` (a list has no attribute `get`). -/
def pyGetTasks (data : Json) : Except PyErr Json :=
  match data with
  | .obj fs => .ok ((alistFind "tasks" fs).getD data)
  | _ => .error .attributeError

/-- `for t in v`: lists yield their elements, dicts their keys, strings
their characters; other values raise `TypeError`. -/
def pyIterate : Json → Except PyErr (List Json)
  | .arr xs => .ok xs
  | .obj fs => .ok (fs.map fun p => .str p.1)
  | .str s => .ok (s.data.map fun c => .str (String.mk [c]))
  | _ => .error .typeError

/-- Characters removed by `str.strip()` in Python (ASCII whitespace). -/
def pySpace (c : Char) : Bool :=
  c = ' ' || c = '\t' || c = '\n' || c = '\r' || c = '\x0b' || c = '\x0c'

/-- Python string trimming, `str.strip()`. -/
def pyStrip (s : String) : String :=
  String.mk (((s.data.dropWhile pySpace).reverse.dropWhile pySpace).reverse)

/-- `v.strip()` on a JSON value: succeeds only on strings, otherwise the
Python call raises `AttributeError`. -/
def pyStripJson : Json → Except PyErr String
  | .str s => .ok (pyStrip s)
  | _ => .error .attributeError

/-- `str(v)` as used inside f-strings for labels. -/
def pyStr : Json → String
  | .null => "None"
  | .bool true => "True"
  | .bool false => "False"
  | .num n => toString n
  | .str s => s
  | .arr _ => "[...]"
  | .obj _ => "{...}"

/-- A normalized task record, as built by the loader of `generate.py`:
`{"title": ..., "description": ..., "phase": ..., "status": ...}` with all
four values strings. -/
structure Task where
  title : String
  description : String
  phase : String
  status : String
deriving DecidableEq

/-! ## Task Loader of `generate.py` (`load_tasks`) -/

/-- The `or`-chain selecting the description source in `generate.py`:
`t.get("description") or t.get("desc") or t.get("desciptio") or ""`. -/
def descChainGen (t : Json) : Json :=
  pyOr (pyOr (pyOr (jget t "description") (jget t "desc")) (jget t "desciptio")) (.str "")

/-- The `or`-chain for the title: `t.get("title") or ""`. -/
def titleChainGen (t : Json) : Json :=
  pyOr (jget t "title") (.str "")

/-- The `or`-chain for the phase: `t.get("phase") or "Unassigned"`. -/
def phaseChainGen (t : Json) : Json :=
  pyOr (jget t "phase") (.str "Unassigned")

/-- The `or`-chain for the status: `t.get("status") or "To Do"`. -/
def statusChainGen (t : Json) : Json :=
  pyOr (jget t "status") (.str "To Do")

/-- One iteration of the normalization loop in `load_tasks` of
`generate.py`: skip non-dicts, strip the four fields (raising
`AttributeError` on truthy non-string values), and drop records whose
trimmed title is empty. -/
def normTaskGen (t : Json) : Except PyErr (Option Task) :=
  if t.isObj then do
    let title ← pyStripJson (titleChainGen t)
    let desc ← pyStripJson (descChainGen t)
    let phase ← pyStripJson (phaseChainGen t)
    let status ← pyStripJson (statusChainGen t)
    if title = "" then
      return none
    return some ⟨title, desc, phase, status⟩
  else
    return none

/-- The function `load_tasks` of `generate.py` applied to the parsed JSON document
(file I/O aside): `tasks = data.get("tasks", data)`, then the
normalization loop. -/
def loadTasksGen (data : Json) : Except PyErr (List Task) := do
  let tasks ← pyGetTasks data
  let items ← pyIterate tasks
  let opts ← items.mapM normTaskGen
  return opts.filterMap id

/-- Exit code of `main` in `generate.py` as a function of the parsed
document: any exception propagating from the loader is caught by the
top-level `except` and turned into exit code 1; otherwise the artifacts
are written and `main` returns 0. -/
def generateMain (data : Json) : Nat :=
  match loadTasksGen data with
  | .error _ => 1
  | .ok _ => 0

/-! ## Task Loader of `create_github_issues.py` (`load_tasks`) -/

/-- Dict mutation `t.setdefault(k, d)`: leave an existing binding alone (even if its
value is falsy), otherwise append the new binding at the end (Python dict
insertion order). -/
def setdefault (k : String) (d : Json) (t : Json) : Json :=
  match t with
  | .obj fs =>
      match alistFind k fs with
      | some _ => .obj fs
      | none => .obj (fs ++ [(k, d)])
  | _ => t

/-- The first loop of `load_tasks` in `create_github_issues.py`: on dicts,
`setdefault` the description (from the legacy `desc`/`desciptio` keys),
phase and status; non-dicts pass through untouched. -/
def setdefaultsIssues (t : Json) : Json :=
  if t.isObj then
    let t := setdefault "description" (pyOr (pyOr (jget t "desc") (jget t "desciptio")) (.str "")) t
    let t := setdefault "phase" (.str "Unassigned") t
    let t := setdefault "status" (.str "To Do") t
    t
  else
    t

/-- The function `load_tasks` of `create_github_issues.py` on the parsed document:
same `data.get("tasks", data)` access, the `setdefault` loop, then the
filter `[t for t in tasks if isinstance(t, dict) and t.get("title")]`. -/
def loadTasksIssues (data : Json) : Except PyErr (List Json) := do
  let tasks ← pyGetTasks data
  let items ← pyIterate tasks
  let items := items.map setdefaultsIssues
  return items.filter fun t => t.isObj && pyTruthy (jget t "title")

/-! ## Document Renderer (`write_markdown`) -/

/-- Case folding `str.lower()` on the sort key (ASCII model; titles in
the repository data are ASCII). -/
def pyLower (s : String) : String :=
  String.mk (s.data.map Char.toLower)

/-- The sort key comparison `(x["status"], x["title"].lower())`:
lexicographic comparison of the pair, `≤` form. -/
def taskLe (a b : Task) : Bool :=
  decide (a.status < b.status) ||
    (a.status == b.status && decide (pyLower a.title ≤ pyLower b.title))

/-- Insert a task into an already sorted list, after all entries whose key
is `≤` its own — the insertion point a stable sort gives it. -/
def insSorted (x : Task) : List Task → List Task
  | [] => [x]
  | y :: ys => if taskLe y x then y :: insSorted x ys else x :: y :: ys

/-- Stable sort by `(status, lowercased title)`, modelling
`v.sort(key=lambda x: (x["status"], x["title"].lower()))` (the Python
sort is stable; any stable sort with the same total preorder produces the
same list). -/
def sortTasks (l : List Task) : List Task :=
  l.foldl (fun acc x => insSorted x acc) []

/-- First binding of `k` (bucket lookup). -/
def alistFindT (k : String) : List (String × List Task) → Option (List Task)
  | [] => none
  | (k', v) :: rest => if k' = k then some v else alistFindT k rest

/-- The dict update `by_phase.setdefault(...).append(t)` on the association
list modelling the dict: append to the existing bucket, or add a new
bucket at the end (dict insertion order). -/
def bucketAdd (m : List (String × List Task)) (t : Task) : List (String × List Task) :=
  match alistFindT t.phase m with
  | some _ => m.map fun kv => if kv.1 = t.phase then (kv.1, kv.2 ++ [t]) else kv
  | none => m ++ [(t.phase, [t])]

/-- The initial `by_phase` dict: `{"Now": [], "Next": [], "Later": [], "Unassigned": []}`. -/
def emptyBuckets : List (String × List Task) :=
  [("Now", []), ("Next", []), ("Later", []), ("Unassigned", [])]

/-- The fully built `by_phase` dict for a task list. -/
def byPhase (tasks : List Task) : List (String × List Task) :=
  tasks.foldl bucketAdd emptyBuckets

/-- Bucket read `by_phase.get(p)`: the bucket for `p` (empty when the key
is absent), after the in-place sort of every bucket. -/
def bucketSorted (p : String) (tasks : List Task) : List Task :=
  sortTasks ((alistFindT p (byPhase tasks)).getD [])

/-- The task line of the grouped document: a dash bullet, the title, the
separator (the literal three characters U+00E2 U+20AC U+201D present in
the source), the status, extended with the truncated single-line
description sub-bullet when the description is non-empty. -/
def renderMdEntry (t : Task) : String :=
  let base := "- " ++ t.title ++ " â€” " ++ t.status
  if t.description ≠ "" then
    let short := pyStrip (String.mk (t.description.data.map fun c => if c = '\n' then ' ' else c))
    let short := if short.length > 160 then short.take 157 ++ "..." else short
    base ++ "\n  - " ++ short
  else
    base

/-- The `short` value computed for a task description: newlines replaced
by spaces, then stripped, before truncation. -/
def singleLineDesc (t : Task) : String :=
  pyStrip (String.mk (t.description.data.map fun c => if c = '\n' then ' ' else c))

/-- One phase section of `ROADMAP.md`: skipped when the bucket is empty,
else the `## <phase>` heading, the sorted entries, and a blank element. -/
def mdSection (tasks : List Task) (p : String) : List String :=
  match bucketSorted p tasks with
  | [] => []
  | b => ("## " ++ p) :: b.map renderMdEntry ++ [""]

/-- The fixed preamble of `ROADMAP.md`. -/
def mdPreamble : List String :=
  ["# Roadmap",
   "",
   "Source: `blackbox_roadmap_with_backlog.json`. Phases reflect delivery priority. Update with `python3 scripts/roadmap/generate.py`.",
   ""]

/-- The list `md` accumulated by `write_markdown` for `ROADMAP.md`. -/
def mdBlocks (tasks : List Task) : List String :=
  mdPreamble ++ mdSection tasks "Now" ++ mdSection tasks "Next" ++ mdSection tasks "Later"

/-- The full text written to `docs/ROADMAP.md`: `"\n".join(md) + "\n"`. -/
def mdText (tasks : List Task) : String :=
  String.intercalate "\n" (mdBlocks tasks) ++ "\n"

/-- One kanban entry: a dash bullet, the bracketed status, the title. -/
def renderKanbanEntry (t : Task) : String :=
  "- [" ++ t.status ++ "] " ++ t.title

/-- One phase section of `ROADMAP_KANBAN.md`. -/
def kanbanSection (tasks : List Task) (p : String) : List String :=
  match bucketSorted p tasks with
  | [] => []
  | b => ("## " ++ p) :: b.map renderKanbanEntry ++ [""]

/-- The fixed preamble of `ROADMAP_KANBAN.md`. -/
def kanbanPreamble : List String :=
  ["# Roadmap Kanban",
   "",
   "Visual grouping by phase. Use alongside `docs/ROADMAP.md`.",
   ""]

/-- The list accumulated by `write_markdown` for `ROADMAP_KANBAN.md`. -/
def kanbanBlocks (tasks : List Task) : List String :=
  kanbanPreamble ++ kanbanSection tasks "Now" ++ kanbanSection tasks "Next" ++
    kanbanSection tasks "Later"

/-- The full text written to `docs/ROADMAP_KANBAN.md`. -/
def kanbanText (tasks : List Task) : String :=
  String.intercalate "\n" (kanbanBlocks tasks) ++ "\n"

/-! ## Tabular Exporter (`write_csv`), with Python `csv` semantics

`csv.writer` with the default dialect: delimiter `,`, quote char `"`,
`QUOTE_MINIMAL` (a field is quoted iff it contains the delimiter, the
quote char, or a line-terminator character, with embedded quotes
doubled), row terminator `"\r\n"`. -/

/-- The double-quote character (the `csv` quote char). -/
def quoteChar : Char := Char.ofNat 34

/-- Does `QUOTE_MINIMAL` quote this field? -/
def needsQuote (s : String) : Bool :=
  s.data.any fun c => c = ',' || c = quoteChar || c = '\r' || c = '\n'

/-- Double every quote character of a field body. -/
def escapeQuotes (cs : List Char) : List Char :=
  cs.flatMap fun c => if c = quoteChar then [quoteChar, quoteChar] else [c]

/-- One encoded field under `QUOTE_MINIMAL`. -/
def encodeField (s : String) : List Char :=
  if needsQuote s then quoteChar :: escapeQuotes s.data ++ [quoteChar] else s.data

/-- One encoded row: comma-separated fields plus the `"\r\n"` terminator. -/
def encodeRow : List String → List Char
  | [] => ['\r', '\n']
  | [f] => encodeField f ++ ['\r', '\n']
  | f :: fs => encodeField f ++ ',' :: encodeRow fs

/-- A whole CSV file. -/
def encodeCsv (rows : List (List String)) : List Char :=
  (rows.map encodeRow).flatten

/-- The rows written to `docs/roadmap.csv`: the header then one row per
task with the verbatim field values, in list order. -/
def genCsvRows (tasks : List Task) : List (List String) :=
  ["title", "description", "phase", "status"] ::
    tasks.map fun t => [t.title, t.description, t.phase, t.status]

/-- The character content of `docs/roadmap.csv`. -/
def genCsvText (tasks : List Task) : List Char :=
  encodeCsv (genCsvRows tasks)

/-- The rows written to `tools/github/issues_import.csv`: header
`Title, Body, Labels`, body defaulting to the fixed placeholder, labels
`phase:<phase>,status:<status>`. -/
def issuesCsvRows (tasks : List Task) : List (List String) :=
  ["Title", "Body", "Labels"] ::
    tasks.map fun t =>
      [t.title,
       if t.description ≠ "" then t.description else "Imported from roadmap.",
       "phase:" ++ t.phase ++ "," ++ "status:" ++ t.status]

/-! ### CSV reader (`csv.reader` with the default dialect) -/

/-- Parser state: inside an unquoted field (or at a field start), inside
a quoted field, or just after a quote character inside a quoted field. -/
inductive CsvSt where
  | unq : CsvSt
  | qtd : CsvSt
  | qend : CsvSt

/-- Drop one leading line-feed character (the second half of a `"\r\n"`
row terminator). -/
def dropNl : List Char → List Char
  | [] => []
  | c :: t => if c = '\n' then t else c :: t

theorem dropNl_length_le (l : List Char) : (dropNl l).length ≤ l.length := by
  cases l with
  | nil => simp [dropNl]
  | cons c t =>
      by_cases h : c = '\n' <;> simp [dropNl, h]

/-- The `csv.reader` state machine.  `f` is the current field (in order),
`r` the completed fields of the current row.  A quote begins a quoted field
only at a field start (empty `f`); `"\r\n"`, `"\n"` and a stray `"\r"`
terminate a row; a doubled quote inside a quoted field is a literal
quote; at end of input a pending row is emitted. -/
def csvParseAux : CsvSt → List Char → List Char → List String → List (List String)
  | .unq, [], f, r => if f.isEmpty && r.isEmpty then [] else [r ++ [String.mk f]]
  | .unq, c :: rest, f, r =>
      if c = '\r' then (r ++ [String.mk f]) :: csvParseAux .unq (dropNl rest) [] []
      else if c = '\n' then (r ++ [String.mk f]) :: csvParseAux .unq rest [] []
      else if c = ',' then csvParseAux .unq rest [] (r ++ [String.mk f])
      else if c = quoteChar ∧ f = [] then csvParseAux .qtd rest [] r
      else csvParseAux .unq rest (f ++ [c]) r
  | .qtd, [], f, r => [r ++ [String.mk f]]
  | .qtd, c :: rest, f, r =>
      if c = quoteChar then csvParseAux .qend rest f r
      else csvParseAux .qtd rest (f ++ [c]) r
  | .qend, [], f, r => [r ++ [String.mk f]]
  | .qend, c :: rest, f, r =>
      if c = quoteChar then csvParseAux .qtd rest (f ++ [quoteChar]) r
      else if c = '\r' then (r ++ [String.mk f]) :: csvParseAux .unq (dropNl rest) [] []
      else if c = '\n' then (r ++ [String.mk f]) :: csvParseAux .unq rest [] []
      else if c = ',' then csvParseAux .unq rest [] (r ++ [String.mk f])
      else csvParseAux .unq rest (f ++ [c]) r
termination_by _ cs _ _ => cs.length
decreasing_by
  all_goals simp_wf
  all_goals exact Nat.lt_succ_of_le (dropNl_length_le _)

/-- Parse a CSV character stream into rows of fields. -/
def csvParse (cs : List Char) : List (List String) :=
  csvParseAux .unq cs [] []

/-! ## Issue Publisher (`create_github_issues.py`'s `main`) -/

/-- Observable outcome of a run of the publishing entry point: the lines
printed to stdout and stderr, the issue-creation commands actually
executed (the `gh --version` probe aside), and the process exit code. -/
structure Outcome where
  stdout : List String
  stderr : List String
  executed : List (List String)
  exitCode : Nat
deriving DecidableEq

/-- The list `base_cmd`: `["gh", "issue", "create"]` plus `--repo` when resolved. -/
def baseCmd (repo : Option String) : List String :=
  ["gh", "issue", "create"] ++ (match repo with | some r => ["--repo", r] | none => [])

/-- The stripped title used in the loop body: `t["title"].strip()` — a
`KeyError` on a missing key, an `AttributeError` on a non-string. -/
def loopTitle (t : Json) : Except PyErr String :=
  match t with
  | .obj fs =>
      match alistFind "title" fs with
      | some v => pyStripJson v
      | none => .error .keyError
  | _ => .error .typeError

/-- The issue body: `(t.get("description") or "Imported from roadmap.").strip()`. -/
def loopBody (t : Json) : Except PyErr String :=
  pyStripJson (pyOr (jget t "description") (.str "Imported from roadmap."))

/-- The label argument: `phase:` and `status:` prefixes applied to the
`get` results with defaults `Unassigned` and `To Do`, comma-joined. -/
def loopLabels (t : Json) : String :=
  "phase:" ++ pyStr (jgetD t "phase" (.str "Unassigned")) ++ "," ++
    "status:" ++ pyStr (jgetD t "status" (.str "To Do"))

/-- The full issue-creation command constructed for one task. -/
def issueCmd (repo : Option String) (title body : String) (t : Json) : List String :=
  baseCmd repo ++ ["--title", title, "--body", body, "--label", loopLabels t]

/-- The command a well-formed task produces (both strips succeeding). -/
def taskCmd (repo : Option String) (t : Json) : List String :=
  issueCmd repo ((loopTitle t).toOption.getD "") ((loopBody t).toOption.getD "") t

/-- Modelled rendering of `str(e)` for a `subprocess.CalledProcessError`
with the given exit code (the command repr is elided). -/
def cpeMsg (code : Nat) : String :=
  "Command returned non-zero exit status " ++ toString code ++ "."

/-- The per-task loop of `main`: construct the command; in dry-run print
it and continue; otherwise run it, counting and confirming successes and
reporting failures to stderr.  `runRes` gives the exit status of the
external tool for each executed command.  Returns
`(created, stdout, stderr, executed)`. -/
def publishLoop (repo : Option String) (dryRun : Bool) (runRes : List String → Nat) :
    List Json → Except PyErr (Nat × List String × List String × List (List String))
  | [] => .ok (0, [], [], [])
  | t :: rest => do
      let title ← loopTitle t
      let body ← loopBody t
      let cmd := issueCmd repo title body t
      if dryRun then
        let (created, out, err, ex) ← publishLoop repo dryRun runRes rest
        return (created, ("DRY: " ++ String.intercalate " " cmd) :: out, err, ex)
      else
        let code := runRes cmd
        let (created, out, err, ex) ← publishLoop repo dryRun runRes rest
        if code = 0 then
          return (created + 1, ("Created issue: " ++ title) :: out, err, cmd :: ex)
        else
          return (created, out,
            ("Failed to create issue for \x27" ++ title ++ "\x27: " ++ cpeMsg code) :: err,
            cmd :: ex)

/-- The entry point `main` of `create_github_issues.py` as a function of the parsed
document, the resolved `--repo`/`GH_REPO` value, the `--dry-run` flag,
whether the `gh --version` probe succeeds, and the exit status of each
creation command.  Any exception escaping the loader or the loop is
caught by the outer `except` (stderr diagnostic `Error: ...`, exit 1);
the model records only the diagnostic and exit code for that aborted
path, not lines printed before the exception. -/
def publisherMain (data : Json) (repo : Option String) (dryRun : Bool)
    (ghOk : Bool) (runRes : List String → Nat) : Outcome :=
  match loadTasksIssues data with
  | .error _ => ⟨[], ["Error: exception"], [], 1⟩
  | .ok tasks =>
      if tasks.isEmpty then
        ⟨["No tasks found."], [], [], 1⟩
      else if !ghOk then
        ⟨[], ["Error: GitHub CLI (gh) not found. Install from https://cli.github.com/"], [], 1⟩
      else if repo.isNone && !dryRun then
        ⟨[], ["Error: --repo must be specified or GH_REPO environment variable set"], [], 1⟩
      else
        match publishLoop repo dryRun runRes tasks with
        | .error _ => ⟨[], ["Error: exception"], [], 1⟩
        | .ok (created, out, err, ex) =>
            ⟨out ++ ["Done. Created " ++ toString created ++ " issues."], err, ex, 0⟩

/-! ## Shared lemmas -/

theorem string_mk_data (s : String) : String.mk s.data = s := rfl

theorem string_data_append (a b : String) : (a ++ b).data = a.data ++ b.data := by
  cases a
  cases b
  rfl

theorem dropWhile_head_false {p : Char → Bool} :
    ∀ {l : List Char} {c : Char} {cs : List Char},
      l.dropWhile p = c :: cs → p c = false := by
  intro l
  induction l with
  | nil => intro c cs h; simp [List.dropWhile] at h
  | cons a t ih =>
      intro c cs h
      by_cases hp : p a
      · rw [List.dropWhile_cons_of_pos hp] at h
        exact ih h
      · rw [List.dropWhile_cons_of_neg hp] at h
        cases h
        exact Bool.of_not_eq_true hp

theorem dropWhile_cons_false {p : Char → Bool} {c : Char} (cs : List Char)
    (h : p c = false) : (c :: cs).dropWhile p = c :: cs :=
  List.dropWhile_cons_of_neg (by simp [h])

theorem dropWhile_suffix (p : Char → Bool) : ∀ l : List Char, l.dropWhile p <:+ l := by
  intro l
  induction l with
  | nil => simp
  | cons a t ih =>
      by_cases hp : p a
      · rw [List.dropWhile_cons_of_pos hp]
        exact ih.trans (List.suffix_cons a t)
      · rw [List.dropWhile_cons_of_neg hp]

/-- Trimming is idempotent. -/
theorem pyStrip_idem (s : String) : pyStrip (pyStrip s) = pyStrip s := by
  unfold pyStrip
  cases hb : (s.data.dropWhile pySpace).reverse.dropWhile pySpace with
  | nil => simp
  | cons d bs =>
      have hd : pySpace d = false := dropWhile_head_false hb
      have hpref : (d :: bs).reverse <+: s.data.dropWhile pySpace := by
        have hsuf : d :: bs <:+ (s.data.dropWhile pySpace).reverse := by
          rw [← hb]; exact dropWhile_suffix pySpace _
        rcases hsuf with ⟨pre, hpre⟩
        refine ⟨pre.reverse, ?_⟩
        have hrev : (pre ++ d :: bs).reverse = (s.data.dropWhile pySpace).reverse.reverse := by
          rw [hpre]
        simpa [List.reverse_append] using hrev
      have hhead : ∀ {x : Char} {xs : List Char}, (d :: bs).reverse = x :: xs → pySpace x = false := by
        intro x xs hx
        rcases hpref with ⟨tail, htail⟩
        rw [hx] at htail
        have : s.data.dropWhile pySpace = x :: (xs ++ tail) := by
          rw [← htail]; simp
        have := dropWhile_head_false this
        exact this
      cases hrev : (d :: bs).reverse with
      | nil => simp at hrev
      | cons x xs =>
          have hx : pySpace x = false := hhead hrev
          have h2 : (x :: xs).reverse = d :: bs := by
            rw [← hrev, List.reverse_reverse]
          simp only [String.mk]
          rw [dropWhile_cons_false _ hx]
          rw [h2]
          rw [dropWhile_cons_false _ hd]
          rw [hrev]

theorem pyStrip_empty : pyStrip "" = "" := rfl

/-- Inversion for a successful strip. -/
theorem pyStripJson_ok {v : Json} {s : String} (h : pyStripJson v = .ok s) :
    ∃ str, v = .str str ∧ s = pyStrip str := by
  cases v with
  | str t => exact ⟨t, rfl, by cases h; rfl⟩
  | null => cases h
  | bool b => cases h
  | num n => cases h
  | arr xs => cases h
  | obj fs => cases h

/-- Inversion of the normalization of one record in `generate.py`: a kept
record is a dict whose four chains strip successfully, with a non-empty
trimmed title. -/
theorem normTaskGen_ok_some {t : Json} {task : Task}
    (h : normTaskGen t = .ok (some task)) :
    t.isObj = true ∧
    ∃ st sd sp ss, pyStripJson (titleChainGen t) = .ok st ∧
      pyStripJson (descChainGen t) = .ok sd ∧
      pyStripJson (phaseChainGen t) = .ok sp ∧
      pyStripJson (statusChainGen t) = .ok ss ∧
      st ≠ "" ∧ task = ⟨st, sd, sp, ss⟩ := by
  unfold normTaskGen at h
  by_cases hobj : t.isObj
  · rw [if_pos hobj] at h
    refine ⟨hobj, ?_⟩
    cases h1 : pyStripJson (titleChainGen t) with
    | error e => rw [h1] at h; cases h
    | ok st =>
        rw [h1] at h
        cases h2 : pyStripJson (descChainGen t) with
        | error e => rw [h2] at h; cases h
        | ok sd =>
            rw [h2] at h
            cases h3 : pyStripJson (phaseChainGen t) with
            | error e => rw [h3] at h; cases h
            | ok sp =>
                rw [h3] at h
                cases h4 : pyStripJson (statusChainGen t) with
                | error e => rw [h4] at h; cases h
                | ok ss =>
                    rw [h4] at h
                    simp only [Except.bind, bind, pure] at h
                    by_cases ht : st = ""
                    · rw [if_pos ht] at h
                      cases h
                    · rw [if_neg ht] at h
                      cases h
                      exact ⟨st, sd, sp, ss, rfl, rfl, rfl, rfl, ht, rfl⟩
  · rw [if_neg hobj] at h
    cases h

/-- Every task produced by a successful `mapM` run of the normalizer comes
from some input record. -/
theorem mapM_normTaskGen_mem {items : List Json} {opts : List (Option Task)}
    (h : items.mapM normTaskGen = .ok opts) :
    ∀ o ∈ opts, ∃ t ∈ items, normTaskGen t = .ok o := by
  induction items generalizing opts with
  | nil =>
      cases h
      intro o ho
      cases ho
  | cons x xs ih =>
      simp only [List.mapM_cons, bind, Except.bind, pure] at h
      cases hx : normTaskGen x with
      | error e => rw [hx] at h; cases h
      | ok o0 =>
          rw [hx] at h
          cases hxs : xs.mapM normTaskGen with
          | error e => rw [hxs] at h; cases h
          | ok os =>
              rw [hxs] at h
              simp only [Except.pure] at h
              cases h
              intro o ho
              rcases List.mem_cons.mp ho with rfl | ho
              · exact ⟨x, List.mem_cons_self x xs, hx⟩
              · rcases ih hxs o ho with ⟨t, ht, hnorm⟩
                exact ⟨t, List.mem_cons_of_mem x ht, hnorm⟩

/-! ## C1 — acceptance of the two top-level input forms -/

/-- Claim C1 (code_bug evidence): the mapping form `{"tasks": L}` loads
and normalizes, but the bare-sequence form `L` makes `data.get` raise
`AttributeError` in both entry points, so the load fails (exit 1 in the
generation entry point) instead of being accepted identically. -/
theorem c1_bare_sequence_rejected :
    loadTasksGen (.obj [("tasks", .arr [.obj [("title", .str "a")]])]) =
      .ok [⟨"a", "", "Unassigned", "To Do"⟩] ∧
    loadTasksGen (.arr [.obj [("title", .str "a")]]) = .error .attributeError ∧
    loadTasksIssues (.arr [.obj [("title", .str "a")]]) = .error .attributeError ∧
    generateMain (.arr [.obj [("title", .str "a")]]) = 1 :=
  ⟨rfl, rfl, rfl, rfl⟩

/-! ## C2 — populated phase/status and discarded blank titles -/

/-- Claim C2 is false on the code: in `generate.py` a whitespace-only
input phase is truthy, so the default is skipped and trimming leaves a
blank phase (not `Unassigned`); in `create_github_issues.py` a record
whose title trims to blank is kept (the filter only requires a truthy raw
title), and a present-but-blank status survives `setdefault`. -/
theorem c2_counterexample :
    normTaskGen (.obj [("title", .str "a"), ("phase", .str " ")]) =
      .ok (some ⟨"a", "", "", "To Do"⟩) ∧
    loadTasksIssues (.obj [("tasks", .arr [.obj [("title", .str " "), ("status", .str "")]])]) =
      .ok [.obj [("title", .str " "), ("status", .str ""), ("description", .str ""),
                 ("phase", .str "Unassigned")]] :=
  ⟨rfl, rfl⟩

theorem alistFind_append (k : String) (fs gs : List (String × Json)) :
    alistFind k (fs ++ gs) =
      match alistFind k fs with
      | some v => some v
      | none => alistFind k gs := by
  induction fs with
  | nil => simp [alistFind]
  | cons p rest ih =>
      by_cases h : p.1 = k
      · simp [alistFind, h]
      · simp [alistFind, h, ih]

theorem setdefault_find (fs : List (String × Json)) (k : String) (d : Json) (k2 : String) :
    ∃ gs, setdefault k d (.obj fs) = .obj gs ∧
      alistFind k2 gs =
        if k2 = k then some ((alistFind k fs).getD d) else alistFind k2 fs := by
  cases h : alistFind k fs with
  | some v =>
      refine ⟨fs, ?_, ?_⟩
      · simp [setdefault, h]
      · by_cases hk : k2 = k
        · subst hk; simp [h]
        · rw [if_neg hk]
  | none =>
      refine ⟨fs ++ [(k, d)], ?_, ?_⟩
      · simp [setdefault, h]
      · rw [alistFind_append]
        by_cases hk : k2 = k
        · subst hk
          rw [h]
          simp [alistFind]
        · rw [if_neg hk]
          cases h2 : alistFind k2 fs with
          | some v => rfl
          | none =>
              have hk2 : ¬k = k2 := fun hh => hk hh.symm
              simp [alistFind, hk2]

theorem setdefaultsIssues_obj (fs : List (String × Json)) :
    setdefaultsIssues (.obj fs) =
      setdefault "status" (.str "To Do")
        (setdefault "phase" (.str "Unassigned")
          (setdefault "description"
            (pyOr (pyOr (jget (.obj fs) "desc") (jget (.obj fs) "desciptio")) (.str ""))
            (.obj fs))) := rfl

/-- Field values of a record after the `setdefault` loop of the publishing
loader: the title (and every key outside the three defaulted ones) is
untouched; description, phase and status keep an existing binding — even a
blank one — and are otherwise set to their defaults. -/
theorem setdefaultsIssues_fields (fs : List (String × Json)) :
    jget (setdefaultsIssues (.obj fs)) "title" = jget (.obj fs) "title" ∧
    jget (setdefaultsIssues (.obj fs)) "description" =
      (alistFind "description" fs).getD
        (pyOr (pyOr (jget (.obj fs) "desc") (jget (.obj fs) "desciptio")) (.str "")) ∧
    jget (setdefaultsIssues (.obj fs)) "phase" =
      (alistFind "phase" fs).getD (.str "Unassigned") ∧
    jget (setdefaultsIssues (.obj fs)) "status" =
      (alistFind "status" fs).getD (.str "To Do") := by
  obtain ⟨gs1, hg1, hf1⟩ :=
    setdefault_find fs "description"
      (pyOr (pyOr (jget (.obj fs) "desc") (jget (.obj fs) "desciptio")) (.str "")) "description"
  obtain ⟨gs2, hg2, hf2⟩ := setdefault_find gs1 "phase" (.str "Unassigned") "phase"
  obtain ⟨gs3, hg3, hf3⟩ := setdefault_find gs2 "status" (.str "To Do") "status"
  have find1 : ∀ k2, k2 ≠ "description" → alistFind k2 gs1 = alistFind k2 fs := by
    intro k2 hk2
    obtain ⟨g, hg, hf⟩ :=
      setdefault_find fs "description"
        (pyOr (pyOr (jget (.obj fs) "desc") (jget (.obj fs) "desciptio")) (.str "")) k2
    rw [hg1] at hg
    cases hg
    rw [if_neg hk2] at hf
    exact hf
  have find2 : ∀ k2, k2 ≠ "phase" → alistFind k2 gs2 = alistFind k2 gs1 := by
    intro k2 hk2
    obtain ⟨g, hg, hf⟩ := setdefault_find gs1 "phase" (.str "Unassigned") k2
    rw [hg2] at hg
    cases hg
    rw [if_neg hk2] at hf
    exact hf
  have find3 : ∀ k2, k2 ≠ "status" → alistFind k2 gs3 = alistFind k2 gs2 := by
    intro k2 hk2
    obtain ⟨g, hg, hf⟩ := setdefault_find gs2 "status" (.str "To Do") k2
    rw [hg3] at hg
    cases hg
    rw [if_neg hk2] at hf
    exact hf
  rw [if_pos rfl] at hf1 hf2 hf3
  have hall : setdefaultsIssues (.obj fs) = .obj gs3 := by
    rw [setdefaultsIssues_obj, hg1, hg2, hg3]
  rw [hall]
  refine ⟨?_, ?_, ?_, ?_⟩
  · show (alistFind "title" gs3).getD .null = jget (.obj fs) "title"
    rw [find3 _ (by decide), find2 _ (by decide), find1 _ (by decide)]
    rfl
  · show (alistFind "description" gs3).getD .null = _
    rw [find3 _ (by decide), find2 _ (by decide), hf1]
    cases alistFind "description" fs <;> rfl
  · show (alistFind "phase" gs3).getD .null = _
    rw [find3 _ (by decide), hf2, find1 _ (by decide)]
    cases alistFind "phase" fs <;> rfl
  · show (alistFind "status" gs3).getD .null = _
    rw [hf3, find2 _ (by decide), find1 _ (by decide)]
    cases alistFind "status" fs <;> rfl

theorem except_bind_ok {α β : Type} (a : α) (f : α → Except PyErr β) :
    (Except.ok a : Except PyErr α) >>= f = f a := rfl

/-- Every task in a successful generation load comes from normalizing some
record. -/
theorem loadTasksGen_ok_inv {data : Json} {tasks : List Task}
    (h : loadTasksGen data = .ok tasks) :
    ∀ task ∈ tasks, ∃ t, normTaskGen t = .ok (some task) := by
  unfold loadTasksGen at h
  cases h1 : pyGetTasks data with
  | error e => rw [h1] at h; cases h
  | ok d1 =>
      rw [h1] at h
      simp only [except_bind_ok] at h
      cases h2 : pyIterate d1 with
      | error e => rw [h2] at h; cases h
      | ok items =>
          rw [h2] at h
          simp only [except_bind_ok] at h
          cases h3 : items.mapM normTaskGen with
          | error e => rw [h3] at h; cases h
          | ok opts =>
              rw [h3] at h
              simp only [except_bind_ok, pure, Except.pure] at h
              cases h
              intro task htask
              rcases List.mem_filterMap.mp htask with ⟨o, ho, hid⟩
              cases hid
              rcases mapM_normTaskGen_mem h3 _ ho with ⟨t, _, hnorm⟩
              exact ⟨t, hnorm⟩

/-- Every record in a successful publishing load is a dict with a truthy
title, and is the `setdefault`-image of some input element. -/
theorem loadTasksIssues_ok_inv {data : Json} {tasks : List Json}
    (h : loadTasksIssues data = .ok tasks) :
    ∀ t ∈ tasks, t.isObj = true ∧ pyTruthy (jget t "title") = true := by
  unfold loadTasksIssues at h
  cases h1 : pyGetTasks data with
  | error e => rw [h1] at h; cases h
  | ok d1 =>
      rw [h1] at h
      simp only [except_bind_ok] at h
      cases h2 : pyIterate d1 with
      | error e => rw [h2] at h; cases h
      | ok items =>
          rw [h2] at h
          simp only [except_bind_ok, pure, Except.pure] at h
          cases h
          intro t ht
          have hmem := List.mem_filter.mp ht
          have hpred := hmem.2
          simp only [Bool.and_eq_true] at hpred
          exact hpred

/-- Claim C2 as amended.  Generation entry point: every emitted record has
a non-empty trimmed title; phase defaults to `Unassigned` and status to
`To Do` exactly when the input value is falsy (absent, `None`, or empty),
while a truthy string input is trimmed — so a whitespace-only phase or
status yields a blank, not the default.  Publishing entry point: defaults
apply only when the key is entirely absent (a present blank value passes
through untrimmed), and a record is kept whenever its raw title value is
truthy, including a whitespace-only title. -/
theorem c2_amended :
    (∀ data tasks, loadTasksGen data = .ok tasks → ∀ task ∈ tasks,
        task.title ≠ "" ∧ pyStrip task.title = task.title) ∧
    (∀ t task, normTaskGen t = .ok (some task) →
        (pyTruthy (jget t "phase") = false → task.phase = "Unassigned") ∧
        (pyTruthy (jget t "status") = false → task.status = "To Do") ∧
        (∀ s, jget t "phase" = .str s → s ≠ "" → task.phase = pyStrip s) ∧
        (∀ s, jget t "status" = .str s → s ≠ "" → task.status = pyStrip s)) ∧
    (∀ fs, jget (setdefaultsIssues (.obj fs)) "phase" =
        (alistFind "phase" fs).getD (.str "Unassigned") ∧
      jget (setdefaultsIssues (.obj fs)) "status" =
        (alistFind "status" fs).getD (.str "To Do")) ∧
    (∀ data tasks, loadTasksIssues data = .ok tasks → ∀ t ∈ tasks,
        t.isObj = true ∧ pyTruthy (jget t "title") = true) := by
  refine ⟨?_, ?_, ?_, ?_⟩
  · intro data tasks h task htask
    rcases loadTasksGen_ok_inv h task htask with ⟨t, hnorm⟩
    rcases normTaskGen_ok_some hnorm with
      ⟨hobj, st, sd, sp, ss, h1, h2, h3, h4, hne, hteq⟩
    rcases pyStripJson_ok h1 with ⟨str0, hv, hs⟩
    subst hteq
    exact ⟨hne, by rw [hs, pyStrip_idem]⟩
  · intro t task hnorm
    rcases normTaskGen_ok_some hnorm with
      ⟨hobj, st, sd, sp, ss, h1, h2, h3, h4, hne, hteq⟩
    subst hteq
    refine ⟨?_, ?_, ?_, ?_⟩
    · intro hfalsy
      have hchain : phaseChainGen t = .str "Unassigned" := by
        unfold phaseChainGen pyOr
        rw [hfalsy]
        simp
      rw [hchain] at h3
      cases h3
      rfl
    · intro hfalsy
      have hchain : statusChainGen t = .str "To Do" := by
        unfold statusChainGen pyOr
        rw [hfalsy]
        simp
      rw [hchain] at h4
      cases h4
      rfl
    · intro s hs hsne
      have hchain : phaseChainGen t = .str s := by
        unfold phaseChainGen pyOr
        rw [hs]
        simp [pyTruthy, hsne]
      rw [hchain] at h3
      cases h3
      rfl
    · intro s hs hsne
      have hchain : statusChainGen t = .str s := by
        unfold statusChainGen pyOr
        rw [hs]
        simp [pyTruthy, hsne]
      rw [hchain] at h4
      cases h4
      rfl
  · intro fs
    rcases setdefaultsIssues_fields fs with ⟨_, _, hp, hs⟩
    exact ⟨hp, hs⟩
  · intro data tasks h t ht
    exact loadTasksIssues_ok_inv h t ht

/-- Witness for the amended C2 at concrete inputs. -/
theorem c2_amended_witness :
    ((⟨"a", "", "Unassigned", "To Do"⟩ : Task).title ≠ "" ∧
      pyStrip (⟨"a", "", "Unassigned", "To Do"⟩ : Task).title =
        (⟨"a", "", "Unassigned", "To Do"⟩ : Task).title) ∧
    (⟨"a", "", "Unassigned", "To Do"⟩ : Task).phase = "Unassigned" ∧
    jget (setdefaultsIssues (.obj [("title", .str "x")])) "phase" = .str "Unassigned" ∧
    ((Json.obj [("title", .str " "), ("status", .str ""), ("description", .str ""),
        ("phase", .str "Unassigned")]).isObj = true ∧
      pyTruthy (jget (.obj [("title", .str " "), ("status", .str ""),
        ("description", .str ""), ("phase", .str "Unassigned")]) "title") = true) := by
  refine ⟨?_, ?_, ?_, ?_⟩
  · exact c2_amended.1 (.obj [("tasks", .arr [.obj [("title", .str " a ")]])])
      [⟨"a", "", "Unassigned", "To Do"⟩] rfl _ (List.mem_singleton.mpr rfl)
  · exact (c2_amended.2.1 (.obj [("title", .str "a")]) ⟨"a", "", "Unassigned", "To Do"⟩ rfl).1 rfl
  · exact ((c2_amended.2.2.1 [("title", .str "x")]).1).trans rfl
  · exact c2_amended.2.2.2
      (.obj [("tasks", .arr [.obj [("title", .str " "), ("status", .str "")]])])
      [.obj [("title", .str " "), ("status", .str ""), ("description", .str ""),
        ("phase", .str "Unassigned")]] rfl _ (List.mem_singleton.mpr rfl)

theorem pyOr_falsy {a : Json} (b : Json) (h : pyTruthy a = false) : pyOr a b = b := by
  unfold pyOr
  rw [h]
  simp

theorem pyOr_truthy {a : Json} (b : Json) (h : pyTruthy a = true) : pyOr a b = a := by
  unfold pyOr
  rw [h]
  simp

theorem pyTruthy_str_ne {s : String} (h : s ≠ "") : pyTruthy (.str s) = true := by
  simp [pyTruthy, h]

/-! ## C7 — description fallback chain -/

/-- Claim C7 is false on the code: in `create_github_issues.py` the
fallback applies only when the description key is absent, so a
present-but-empty description wins over a non-empty legacy `desc`; and in
`generate.py` the selected value is additionally trimmed, so the computed
field is not the selected value itself. -/
theorem c7_counterexample :
    jget (setdefaultsIssues (.obj [("title", .str "a"), ("description", .str ""),
        ("desc", .str "x")])) "description" = .str "" ∧
    normTaskGen (.obj [("title", .str "a"), ("description", .str "  x  ")]) =
      .ok (some ⟨"a", "x", "Unassigned", "To Do"⟩) :=
  ⟨rfl, rfl⟩

/-- Claim C7 as amended.  Generation entry point: the description is the
trimmed first truthy value among `description`, `desc`, `desciptio`,
defaulting to the empty string when all three are falsy.  Publishing entry
point: the `desc`/`desciptio` fallback applies only when the
`description` key is absent — a present-but-blank value is kept verbatim
and nothing is trimmed.  In both entry points a record carrying only the
misspelled key gets its description from that key. -/
theorem c7_amended :
    (∀ t task, normTaskGen t = .ok (some task) →
        ∃ s, descChainGen t = .str s ∧ task.description = pyStrip s) ∧
    (∀ t task, normTaskGen t = .ok (some task) →
        pyTruthy (jget t "description") = false →
        pyTruthy (jget t "desc") = false →
        pyTruthy (jget t "desciptio") = false →
        task.description = "") ∧
    (∀ fs v, alistFind "description" fs = some v →
        jget (setdefaultsIssues (.obj fs)) "description" = v) ∧
    (∀ fs, alistFind "description" fs = none →
        jget (setdefaultsIssues (.obj fs)) "description" =
          pyOr (pyOr (jget (.obj fs) "desc") (jget (.obj fs) "desciptio")) (.str "")) ∧
    (∀ fs s, alistFind "description" fs = none →
        pyTruthy (jget (.obj fs) "desc") = false →
        jget (.obj fs) "desciptio" = .str s → s ≠ "" →
        jget (setdefaultsIssues (.obj fs)) "description" = .str s) ∧
    (∀ t task s, normTaskGen t = .ok (some task) →
        pyTruthy (jget t "description") = false →
        pyTruthy (jget t "desc") = false →
        jget t "desciptio" = .str s → s ≠ "" →
        task.description = pyStrip s) := by
  have hchain : ∀ t task, normTaskGen t = .ok (some task) →
      ∃ s, descChainGen t = .str s ∧ task.description = pyStrip s := by
    intro t task hnorm
    rcases normTaskGen_ok_some hnorm with
      ⟨hobj, st, sd, sp, ss, h1, h2, h3, h4, hne, hteq⟩
    subst hteq
    rcases pyStripJson_ok h2 with ⟨str0, hv, hs⟩
    exact ⟨str0, hv, hs⟩
  refine ⟨hchain, ?_, ?_, ?_, ?_, ?_⟩
  · intro t task hnorm hd1 hd2 hd3
    rcases hchain t task hnorm with ⟨s, hsel, hdesc⟩
    have : descChainGen t = .str "" := by
      unfold descChainGen
      rw [pyOr_falsy _ hd1, pyOr_falsy _ hd2, pyOr_falsy _ hd3]
    rw [this] at hsel
    cases hsel
    rw [hdesc]
    rfl
  · intro fs v hfind
    rcases setdefaultsIssues_fields fs with ⟨_, hd, _, _⟩
    rw [hd, hfind]
    rfl
  · intro fs hfind
    rcases setdefaultsIssues_fields fs with ⟨_, hd, _, _⟩
    rw [hd, hfind]
    rfl
  · intro fs s hfind hdesc hmiss hne
    rcases setdefaultsIssues_fields fs with ⟨_, hd, _, _⟩
    rw [hd, hfind]
    show pyOr (pyOr (jget (.obj fs) "desc") (jget (.obj fs) "desciptio")) (.str "") = .str s
    rw [hmiss, pyOr_falsy _ hdesc, pyOr_truthy _ (pyTruthy_str_ne hne)]
  · intro t task s hnorm hd1 hd2 hd3 hne
    rcases hchain t task hnorm with ⟨s2, hsel, hdesc⟩
    have : descChainGen t = .str s := by
      unfold descChainGen
      rw [pyOr_falsy _ hd1, pyOr_falsy _ hd2, hd3,
        pyOr_truthy _ (pyTruthy_str_ne hne)]
    rw [this] at hsel
    cases hsel
    exact hdesc

/-- Witness for the amended C7 at concrete inputs, including the
misspelled-key-only record in both entry points. -/
theorem c7_amended_witness :
    (⟨"a", "y", "Unassigned", "To Do"⟩ : Task).description = pyStrip " y " ∧
    jget (setdefaultsIssues (.obj [("title", .str "a"), ("desciptio", .str "z")]))
      "description" = .str "z" ∧
    jget (setdefaultsIssues (.obj [("title", .str "a"), ("description", .str ""),
      ("desc", .str "x")])) "description" = .str "" := by
  refine ⟨?_, ?_, ?_⟩
  · exact c7_amended.2.2.2.2.2 (.obj [("title", .str "a"), ("desciptio", .str " y ")])
      ⟨"a", "y", "Unassigned", "To Do"⟩ " y " rfl rfl rfl rfl (by decide)
  · exact c7_amended.2.2.2.2.1 [("title", .str "a"), ("desciptio", .str "z")] "z"
      rfl rfl rfl (by decide)
  · exact c7_amended.2.2.1 [("title", .str "a"), ("description", .str ""),
      ("desc", .str "x")] (.str "") rfl

/-! ## C9 — truthy non-string field values abort the generation run -/

/-- A value on which the loader calls `.strip()` but which is not a
string (so Python raises `AttributeError`).  For an `or`-chain whose
default is a string literal, the chain result is a non-string exactly
when the selected field value is truthy and not a string. -/
def badVal (v : Json) : Bool :=
  !v.isStr

theorem pyStripJson_error {v : Json} (h : v.isStr = false) :
    pyStripJson v = .error .attributeError := by
  cases v with
  | str s => simp [Json.isStr] at h
  | null => rfl
  | bool b => rfl
  | num n => rfl
  | arr xs => rfl
  | obj fs => rfl

theorem pyStripJson_str (s : String) : pyStripJson (.str s) = .ok (pyStrip s) := rfl

theorem isStr_true {v : Json} (h : v.isStr = true) : ∃ s, v = .str s := by
  cases v with
  | str s => exact ⟨s, rfl⟩
  | null => simp [Json.isStr] at h
  | bool b => simp [Json.isStr] at h
  | num n => simp [Json.isStr] at h
  | arr xs => simp [Json.isStr] at h
  | obj fs => simp [Json.isStr] at h

/-- If any of the four field chains of a dict record selects a non-string
value, normalizing that record raises. -/
theorem normTaskGen_error {t : Json} (hobj : t.isObj = true)
    (hbad : (titleChainGen t).isStr = false ∨ (descChainGen t).isStr = false ∨
      (phaseChainGen t).isStr = false ∨ (statusChainGen t).isStr = false) :
    normTaskGen t = .error .attributeError := by
  unfold normTaskGen
  rw [if_pos hobj]
  cases h1 : (titleChainGen t).isStr with
  | false => rw [pyStripJson_error h1]; rfl
  | true =>
      rcases isStr_true h1 with ⟨s1, hs1⟩
      rw [hs1, pyStripJson_str]
      simp only [except_bind_ok]
      cases h2 : (descChainGen t).isStr with
      | false => rw [pyStripJson_error h2]; rfl
      | true =>
          rcases isStr_true h2 with ⟨s2, hs2⟩
          rw [hs2, pyStripJson_str]
          simp only [except_bind_ok]
          cases h3 : (phaseChainGen t).isStr with
          | false => rw [pyStripJson_error h3]; rfl
          | true =>
              rcases isStr_true h3 with ⟨s3, hs3⟩
              rw [hs3, pyStripJson_str]
              simp only [except_bind_ok]
              cases h4 : (statusChainGen t).isStr with
              | false => rw [pyStripJson_error h4]; rfl
              | true =>
                  exfalso
                  rcases hbad with hb | hb | hb | hb
                  · rw [h1] at hb; cases hb
                  · rw [h2] at hb; cases hb
                  · rw [h3] at hb; cases hb
                  · rw [h4] at hb; cases hb

/-- An erroring element anywhere in the list makes the whole `mapM` run
error. -/
theorem mapM_normTaskGen_error {items : List Json} {t : Json}
    (ht : t ∈ items) (herr : normTaskGen t = .error .attributeError) :
    ∃ e, items.mapM normTaskGen = .error e := by
  induction items with
  | nil => cases ht
  | cons x xs ih =>
      simp only [List.mapM_cons, bind, Except.bind]
      cases hx : normTaskGen x with
      | error e => exact ⟨e, rfl⟩
      | ok o =>
          rcases List.mem_cons.mp ht with rfl | hmem
          · rw [hx] at herr; cases herr
          · rcases ih hmem with ⟨e, he⟩
            rw [he]
            exact ⟨e, rfl⟩

/-- Claim C9: if any iterated record of the generation input is a dict
with a truthy non-string value feeding the title, description, phase or
status chain, the loader raises `AttributeError` (string trimming is
applied without a type check) instead of skipping the record, and `main`
exits with code 1. -/
theorem c9_nonstring_aborts (data tasksJson : Json) (items : List Json) (t : Json)
    (h1 : pyGetTasks data = .ok tasksJson) (h2 : pyIterate tasksJson = .ok items)
    (ht : t ∈ items) (hobj : t.isObj = true)
    (hbad : (pyTruthy (titleChainGen t) = true ∧ (titleChainGen t).isStr = false) ∨
      (pyTruthy (descChainGen t) = true ∧ (descChainGen t).isStr = false) ∨
      (pyTruthy (phaseChainGen t) = true ∧ (phaseChainGen t).isStr = false) ∨
      (pyTruthy (statusChainGen t) = true ∧ (statusChainGen t).isStr = false)) :
    (∃ e, loadTasksGen data = .error e) ∧ generateMain data = 1 := by
  have hbad2 : (titleChainGen t).isStr = false ∨ (descChainGen t).isStr = false ∨
      (phaseChainGen t).isStr = false ∨ (statusChainGen t).isStr = false := by
    rcases hbad with ⟨_, h⟩ | ⟨_, h⟩ | ⟨_, h⟩ | ⟨_, h⟩
    · exact Or.inl h
    · exact Or.inr (Or.inl h)
    · exact Or.inr (Or.inr (Or.inl h))
    · exact Or.inr (Or.inr (Or.inr h))
  have herr := normTaskGen_error hobj hbad2
  rcases mapM_normTaskGen_error ht herr with ⟨e, he⟩
  have hload : loadTasksGen data = .error e := by
    unfold loadTasksGen
    rw [h1]
    simp only [except_bind_ok]
    rw [h2]
    simp only [except_bind_ok]
    rw [he]
    rfl
  refine ⟨⟨e, hload⟩, ?_⟩
  unfold generateMain
  rw [hload]

/-- Witness for C9: a record whose title is the number 5 aborts the run. -/
theorem c9_nonstring_aborts_witness :
    (∃ e, loadTasksGen (.obj [("tasks", .arr [.obj [("title", .num 5)]])]) = .error e) ∧
    generateMain (.obj [("tasks", .arr [.obj [("title", .num 5)]])]) = 1 :=
  c9_nonstring_aborts (.obj [("tasks", .arr [.obj [("title", .num 5)]])])
    (.arr [.obj [("title", .num 5)]]) [.obj [("title", .num 5)]] (.obj [("title", .num 5)])
    rfl rfl (List.mem_singleton.mpr rfl) rfl
    (Or.inl ⟨rfl, rfl⟩)

/-! ## C6 — description truncation in the grouped document -/

theorem singleLineDesc_empty {t : Task} (h : t.description = "") :
    singleLineDesc t = "" := by
  unfold singleLineDesc
  rw [h]
  rfl

/-- Claim C6: in the grouped document entry for a task, a single-line
description of exactly 161 characters is rendered as its first 157
characters followed by the three-character ellipsis marker, and a
single-line description of at most 160 characters is rendered verbatim
(with no sub-bullet at all when the raw description is empty). -/
theorem c6_truncation (t : Task) :
    ((singleLineDesc t).length = 161 →
      renderMdEntry t = "- " ++ t.title ++ " â€” " ++ t.status ++ "\n  - " ++
        ((singleLineDesc t).take 157 ++ "...")) ∧
    ((singleLineDesc t).length ≤ 160 →
      renderMdEntry t =
        if t.description = "" then "- " ++ t.title ++ " â€” " ++ t.status
        else "- " ++ t.title ++ " â€” " ++ t.status ++ "\n  - " ++ singleLineDesc t) := by
  constructor
  · intro hlen
    have hne : t.description ≠ "" := by
      intro h0
      rw [singleLineDesc_empty h0] at hlen
      simp at hlen
    unfold renderMdEntry
    rw [if_pos hne]
    have hshort : pyStrip (String.mk (t.description.data.map
        fun c => if c = Char.ofNat 10 then Char.ofNat 32 else c)) = singleLineDesc t := rfl
    have hgt : (singleLineDesc t).length > 160 := by omega
    show (let short := pyStrip (String.mk (t.description.data.map
        fun c => if c = Char.ofNat 10 then Char.ofNat 32 else c));
      let short := if short.length > 160 then short.take 157 ++ "..." else short;
      "- " ++ t.title ++ " â€” " ++ t.status ++ "\n  - " ++ short) = _
    simp only [hshort]
    rw [if_pos hgt]
  · intro hlen
    by_cases hd : t.description = ""
    · unfold renderMdEntry
      rw [if_pos hd]
      simp [hd]
    · unfold renderMdEntry
      rw [if_pos hd]
      have hshort : pyStrip (String.mk (t.description.data.map
          fun c => if c = Char.ofNat 10 then Char.ofNat 32 else c)) = singleLineDesc t := rfl
      have hle : ¬((singleLineDesc t).length > 160) := by omega
      show (let short := pyStrip (String.mk (t.description.data.map
          fun c => if c = Char.ofNat 10 then Char.ofNat 32 else c));
        let short := if short.length > 160 then short.take 157 ++ "..." else short;
        "- " ++ t.title ++ " â€” " ++ t.status ++ "\n  - " ++ short) = _
      simp only [hshort]
      rw [if_neg hle, if_neg hd]

/-- A task with a 161-character description, for the C6 witness. -/
def c6taskLong : Task :=
  ⟨"t", String.mk (List.replicate 161 (Char.ofNat 120)), "Now", "To Do"⟩

/-- A task with a 160-character description, for the C6 witness. -/
def c6taskShort : Task :=
  ⟨"t", String.mk (List.replicate 160 (Char.ofNat 120)), "Now", "To Do"⟩

/-- Witness for C6 at concrete 161- and 160-character descriptions. -/
theorem c6_truncation_witness :
    ((singleLineDesc c6taskLong).length = 161 ∧
      renderMdEntry c6taskLong = "- " ++ c6taskLong.title ++ " â€” " ++ c6taskLong.status ++
        "\n  - " ++ ((singleLineDesc c6taskLong).take 157 ++ "...")) ∧
    ((singleLineDesc c6taskShort).length ≤ 160 ∧
      renderMdEntry c6taskShort =
        if c6taskShort.description = "" then
          "- " ++ c6taskShort.title ++ " â€” " ++ c6taskShort.status
        else "- " ++ c6taskShort.title ++ " â€” " ++ c6taskShort.status ++ "\n  - " ++
          singleLineDesc c6taskShort) :=
  ⟨⟨by decide, (c6_truncation c6taskLong).1 (by decide)⟩,
   ⟨by decide, (c6_truncation c6taskShort).2 (by decide)⟩⟩

/-! ## C4, C5 — Issue Publisher behaviour -/

theorem taskCmd_eq {t : Json} {st sb : String} (repo : Option String)
    (hst : loopTitle t = .ok st) (hsb : loopBody t = .ok sb) :
    taskCmd repo t = issueCmd repo st sb t := by
  unfold taskCmd
  rw [hst, hsb]
  rfl

/-- In dry-run mode the loop prints one `DRY:` line per task, executes
nothing and counts nothing. -/
theorem publishLoop_dry (repo : Option String) (runRes : List String → Nat) :
    ∀ tasks : List Json,
      (∀ t ∈ tasks, (∃ s, loopTitle t = .ok s) ∧ (∃ s, loopBody t = .ok s)) →
      publishLoop repo true runRes tasks =
        .ok (0, tasks.map (fun t => "DRY: " ++ String.intercalate " " (taskCmd repo t)),
             [], []) := by
  intro tasks
  induction tasks with
  | nil => intro h; rfl
  | cons t rest ih =>
      intro h
      rcases h t (List.mem_cons_self t rest) with ⟨⟨st, hst⟩, ⟨sb, hsb⟩⟩
      have hrest := ih fun x hx => h x (List.mem_cons_of_mem t hx)
      unfold publishLoop
      rw [hst]
      simp only [except_bind_ok]
      rw [hsb]
      simp only [except_bind_ok]
      rw [if_pos trivial]
      rw [hrest]
      simp only [except_bind_ok]
      rw [List.map_cons, taskCmd_eq repo hst hsb]
      rfl

/-- Outside dry-run mode the loop executes every command in order, counts
exactly the successes, and reports each failure on stderr. -/
theorem publishLoop_run (repo : Option String) (runRes : List String → Nat) :
    ∀ tasks : List Json,
      (∀ t ∈ tasks, (∃ s, loopTitle t = .ok s) ∧ (∃ s, loopBody t = .ok s)) →
      ∃ out err,
        publishLoop repo false runRes tasks =
          .ok ((tasks.countP fun t => runRes (taskCmd repo t) == 0), out, err,
               tasks.map (taskCmd repo)) ∧
        (∀ t ∈ tasks, runRes (taskCmd repo t) ≠ 0 →
          ("Failed to create issue for \x27" ++ ((loopTitle t).toOption.getD "") ++
            "\x27: " ++ cpeMsg (runRes (taskCmd repo t))) ∈ err) := by
  intro tasks
  induction tasks with
  | nil =>
      intro h
      exact ⟨[], [], rfl, fun t ht => absurd ht (List.not_mem_nil t)⟩
  | cons t rest ih =>
      intro h
      rcases h t (List.mem_cons_self t rest) with ⟨⟨st, hst⟩, ⟨sb, hsb⟩⟩
      rcases ih (fun x hx => h x (List.mem_cons_of_mem t hx)) with ⟨out, err, hloop, herr⟩
      by_cases hc : runRes (issueCmd repo st sb t) = 0
      · refine ⟨("Created issue: " ++ st) :: out, err, ?_, ?_⟩
        · unfold publishLoop
          rw [hst]
          simp only [except_bind_ok]
          rw [hsb]
          simp only [except_bind_ok]
          rw [hloop]
          simp only [except_bind_ok]
          have hcnt : (t :: rest).countP (fun x => runRes (taskCmd repo x) == 0) =
              (rest.countP fun x => runRes (taskCmd repo x) == 0) + 1 := by
            rw [List.countP_cons]
            rw [taskCmd_eq repo hst hsb]
            simp [hc]
          rw [hcnt]
          rw [List.map_cons, taskCmd_eq repo hst hsb]
          simp only [if_pos hc]
          rfl
        · intro x hx hfail
          rcases List.mem_cons.mp hx with rfl | hmem
          · rw [taskCmd_eq repo hst hsb] at hfail
            exact absurd hc hfail
          · exact herr x hmem hfail
      · refine ⟨out,
          ("Failed to create issue for \x27" ++ st ++ "\x27: " ++
            cpeMsg (runRes (issueCmd repo st sb t))) :: err, ?_, ?_⟩
        · unfold publishLoop
          rw [hst]
          simp only [except_bind_ok]
          rw [hsb]
          simp only [except_bind_ok]
          rw [hloop]
          simp only [except_bind_ok]
          have hcnt : (t :: rest).countP (fun x => runRes (taskCmd repo x) == 0) =
              rest.countP fun x => runRes (taskCmd repo x) == 0 := by
            rw [List.countP_cons]
            rw [taskCmd_eq repo hst hsb]
            simp [hc]
          rw [hcnt]
          rw [List.map_cons, taskCmd_eq repo hst hsb]
          simp only [if_neg hc]
          rfl
        · intro x hx hfail
          rcases List.mem_cons.mp hx with rfl | hmem
          · have hti : (loopTitle x).toOption.getD "" = st := by rw [hst]; rfl
            rw [taskCmd_eq repo hst hsb, hti]
            exact List.mem_cons_self _ _
          · exact List.mem_cons_of_mem _ (herr x hmem hfail)

theorem isEmpty_false_of_ne_nil {tasks : List Json} (h : tasks ≠ []) :
    tasks.isEmpty = false := by
  cases tasks with
  | nil => exact absurd rfl h
  | cons a l => rfl

/-- Claim C4 is false as universally quantified: with an empty normalized
task list the publisher prints `No tasks found.`, reports no created
count, and exits 1 even in dry-run mode. -/
theorem c4_counterexample :
    publisherMain (.obj [("tasks", .arr [])]) none true true (fun _ => 0) =
      ⟨["No tasks found."], [], [], 1⟩ :=
  rfl

/-- Claim C4 as amended: for every NON-EMPTY normalized task list (with
the external tool probe succeeding), `--dry-run` prints exactly one
constructed command line per task and nothing else before the summary,
executes none of them, reports `Done. Created 0 issues.` (whose text
carries the claimed `Created 0 issues.`), and exits 0.  An empty list
instead prints `No tasks found.` and exits 1. -/
theorem c4_amended (data : Json) (tasks : List Json) (repo : Option String)
    (runRes : List String → Nat)
    (hload : loadTasksIssues data = .ok tasks) (hne : tasks ≠ [])
    (hwf : ∀ t ∈ tasks, (∃ s, loopTitle t = .ok s) ∧ (∃ s, loopBody t = .ok s)) :
    publisherMain data repo true true runRes =
      ⟨(tasks.map fun t => "DRY: " ++ String.intercalate " " (taskCmd repo t)) ++
        ["Done. Created 0 issues."], [], [], 0⟩ := by
  unfold publisherMain
  rw [hload]
  simp only []
  rw [isEmpty_false_of_ne_nil hne]
  simp only [Bool.not_true, Bool.and_false, if_false]
  rw [publishLoop_dry repo runRes tasks hwf]
  rfl

/-- Witness for the amended C4: one task, dry run. -/
theorem c4_amended_witness :
    publisherMain (.obj [("tasks", .arr [.obj [("title", .str "T1")]])]) none true true
        (fun _ => 0) =
      ⟨["DRY: gh issue create --title T1 --body Imported from roadmap. --label phase:Unassigned,status:To Do",
        "Done. Created 0 issues."], [], [], 0⟩ := by
  have h := c4_amended (.obj [("tasks", .arr [.obj [("title", .str "T1")]])])
    [.obj [("title", .str "T1"), ("description", .str ""), ("phase", .str "Unassigned"),
      ("status", .str "To Do")]]
    none (fun _ => 0) rfl (by simp)
    (by
      intro t ht
      simp only [List.mem_singleton] at ht
      subst ht
      exact ⟨⟨"T1", rfl⟩, ⟨"Imported from roadmap.", rfl⟩⟩)
  exact h.trans rfl

/-- Claim C5: outside dry-run mode (with a repository resolved and the
tool available), a failing creation command produces a per-task
diagnostic on stderr, is not counted, does not stop later tasks (every
command is still executed, in order), and the final exit code is 0; the
summary reports exactly the number of successes. -/
theorem c5_failure_isolation (data : Json) (tasks : List Json) (r : String)
    (runRes : List String → Nat)
    (hload : loadTasksIssues data = .ok tasks) (hne : tasks ≠ [])
    (hwf : ∀ t ∈ tasks, (∃ s, loopTitle t = .ok s) ∧ (∃ s, loopBody t = .ok s)) :
    (publisherMain data (some r) false true runRes).exitCode = 0 ∧
    (publisherMain data (some r) false true runRes).executed =
      tasks.map (taskCmd (some r)) ∧
    (∀ t ∈ tasks, runRes (taskCmd (some r) t) ≠ 0 →
      ("Failed to create issue for \x27" ++ ((loopTitle t).toOption.getD "") ++
        "\x27: " ++ cpeMsg (runRes (taskCmd (some r) t))) ∈
        (publisherMain data (some r) false true runRes).stderr) ∧
    ("Done. Created " ++
        toString (tasks.countP fun t => runRes (taskCmd (some r) t) == 0) ++ " issues.")
      ∈ (publisherMain data (some r) false true runRes).stdout := by
  rcases publishLoop_run (some r) runRes tasks hwf with ⟨out, err, hloop, herr⟩
  have hmain : publisherMain data (some r) false true runRes =
      ⟨out ++ ["Done. Created " ++
          toString (tasks.countP fun t => runRes (taskCmd (some r) t) == 0) ++ " issues."],
        err, tasks.map (taskCmd (some r)), 0⟩ := by
    unfold publisherMain
    rw [hload]
    simp only []
    rw [isEmpty_false_of_ne_nil hne]
    simp only [Option.isNone_some, Bool.false_and, if_false]
    rw [hloop]
    rfl
  rw [hmain]
  refine ⟨rfl, rfl, ?_, ?_⟩
  · intro t ht hfail
    exact herr t ht hfail
  · exact List.mem_append_right _ (List.mem_singleton.mpr rfl)

/-- Witness for C5: three tasks, the second one failing. -/
theorem c5_failure_isolation_witness :
    ((publisherMain (.obj [("tasks", .arr [.obj [("title", .str "T1")],
        .obj [("title", .str "T2")], .obj [("title", .str "T3")]])]) (some "o/r") false true
        (fun cmd => if cmd = ["gh", "issue", "create", "--repo", "o/r", "--title", "T2",
          "--body", "Imported from roadmap.", "--label", "phase:Unassigned,status:To Do"]
          then 1 else 0)).exitCode = 0) ∧
    ("Done. Created 2 issues." ∈
      (publisherMain (.obj [("tasks", .arr [.obj [("title", .str "T1")],
        .obj [("title", .str "T2")], .obj [("title", .str "T3")]])]) (some "o/r") false true
        (fun cmd => if cmd = ["gh", "issue", "create", "--repo", "o/r", "--title", "T2",
          "--body", "Imported from roadmap.", "--label", "phase:Unassigned,status:To Do"]
          then 1 else 0)).stdout) := by
  have hwf : ∀ t ∈ [Json.obj [("title", .str "T1"), ("description", .str ""),
      ("phase", .str "Unassigned"), ("status", .str "To Do")],
      Json.obj [("title", .str "T2"), ("description", .str ""),
      ("phase", .str "Unassigned"), ("status", .str "To Do")],
      Json.obj [("title", .str "T3"), ("description", .str ""),
      ("phase", .str "Unassigned"), ("status", .str "To Do")]],
      (∃ s, loopTitle t = .ok s) ∧ (∃ s, loopBody t = .ok s) := by
    intro t ht
    rcases List.mem_cons.mp ht with rfl | ht
    · exact ⟨⟨"T1", rfl⟩, ⟨"Imported from roadmap.", rfl⟩⟩
    rcases List.mem_cons.mp ht with rfl | ht
    · exact ⟨⟨"T2", rfl⟩, ⟨"Imported from roadmap.", rfl⟩⟩
    rcases List.mem_cons.mp ht with rfl | ht
    · exact ⟨⟨"T3", rfl⟩, ⟨"Imported from roadmap.", rfl⟩⟩
    · cases ht
  have h := c5_failure_isolation (.obj [("tasks", .arr [.obj [("title", .str "T1")],
      .obj [("title", .str "T2")], .obj [("title", .str "T3")]])])
    [Json.obj [("title", .str "T1"), ("description", .str ""),
      ("phase", .str "Unassigned"), ("status", .str "To Do")],
      Json.obj [("title", .str "T2"), ("description", .str ""),
      ("phase", .str "Unassigned"), ("status", .str "To Do")],
      Json.obj [("title", .str "T3"), ("description", .str ""),
      ("phase", .str "Unassigned"), ("status", .str "To Do")]]
    "o/r"
    (fun cmd => if cmd = ["gh", "issue", "create", "--repo", "o/r", "--title", "T2",
      "--body", "Imported from roadmap.", "--label", "phase:Unassigned,status:To Do"]
      then 1 else 0)
    rfl (by simp) hwf
  refine ⟨h.1, ?_⟩
  have h4 := h.2.2.2
  exact (by decide :
    ("Done. Created " ++
      toString ([Json.obj [("title", .str "T1"), ("description", .str ""),
        ("phase", .str "Unassigned"), ("status", .str "To Do")],
        Json.obj [("title", .str "T2"), ("description", .str ""),
        ("phase", .str "Unassigned"), ("status", .str "To Do")],
        Json.obj [("title", .str "T3"), ("description", .str ""),
        ("phase", .str "Unassigned"), ("status", .str "To Do")]].countP
          fun t => (if taskCmd (some "o/r") t = ["gh", "issue", "create", "--repo", "o/r",
            "--title", "T2", "--body", "Imported from roadmap.", "--label",
            "phase:Unassigned,status:To Do"] then 1 else 0) == 0) ++ " issues.") =
      "Done. Created 2 issues.") ▸ h4

/-! ## Grouping and sorting lemmas (Document Renderer) -/

theorem alistFindT_append (k : String) (m1 m2 : List (String × List Task)) :
    alistFindT k (m1 ++ m2) =
      match alistFindT k m1 with
      | some v => some v
      | none => alistFindT k m2 := by
  induction m1 with
  | nil => simp [alistFindT]
  | cons p rest ih =>
      by_cases h : p.1 = k
      · simp [alistFindT, h]
      · simp [alistFindT, h, ih]

theorem alistFindT_cons (k0 : String) (v0 : List Task) (rest : List (String × List Task))
    (p : String) :
    alistFindT p ((k0, v0) :: rest) = if k0 = p then some v0 else alistFindT p rest := rfl

theorem alistFindT_map_update (m : List (String × List Task)) (t : Task) (p : String) :
    alistFindT p (m.map fun kv => if kv.1 = t.phase then (kv.1, kv.2 ++ [t]) else kv) =
      if t.phase = p then (alistFindT p m).map (fun v => v ++ [t])
      else alistFindT p m := by
  induction m with
  | nil => by_cases h : t.phase = p <;> simp [alistFindT, h]
  | cons kv rest ih =>
      obtain ⟨k0, v0⟩ := kv
      rw [List.map_cons]
      show alistFindT p ((if k0 = t.phase then (k0, v0 ++ [t]) else (k0, v0)) ::
        rest.map fun kv => if kv.1 = t.phase then (kv.1, kv.2 ++ [t]) else kv) = _
      by_cases h1 : k0 = t.phase
      · by_cases h2 : t.phase = p
        · have hk : k0 = p := h1.trans h2
          rw [if_pos h1, alistFindT_cons, if_pos hk, if_pos h2, alistFindT_cons, if_pos hk]
          rfl
        · have hk : ¬(k0 = p) := fun hc => h2 (h1.symm.trans hc)
          rw [if_pos h1, alistFindT_cons, if_neg hk, if_neg h2, alistFindT_cons, if_neg hk]
          have := ih
          rw [if_neg h2] at this
          exact this
      · rw [if_neg h1, alistFindT_cons]
        by_cases h3 : k0 = p
        · have h2 : ¬(t.phase = p) := fun hc => h1 (h3.trans hc.symm)
          rw [if_pos h3, if_neg h2, alistFindT_cons, if_pos h3]
        · rw [if_neg h3]
          by_cases h2 : t.phase = p
          · rw [if_pos h2, alistFindT_cons, if_neg h3]
            have := ih
            rw [if_pos h2] at this
            exact this
          · rw [if_neg h2, alistFindT_cons, if_neg h3]
            have := ih
            rw [if_neg h2] at this
            exact this

theorem alistFindT_bucketAdd (m : List (String × List Task)) (t : Task) (p : String) :
    alistFindT p (bucketAdd m t) =
      if t.phase = p then some ((alistFindT p m).getD [] ++ [t])
      else alistFindT p m := by
  unfold bucketAdd
  cases hm : alistFindT t.phase m with
  | some v =>
      rw [alistFindT_map_update]
      by_cases h : t.phase = p
      · subst h
        rw [hm, if_pos rfl, if_pos rfl]
        rfl
      · rw [if_neg h, if_neg h]
  | none =>
      rw [alistFindT_append]
      by_cases h : t.phase = p
      · subst h
        rw [hm, if_pos rfl]
        simp [alistFindT]
      · rw [if_neg h]
        cases h2 : alistFindT p m with
        | some v => rfl
        | none =>
            have hne : ¬(t.phase = p) := h
            simp [alistFindT, hne]

theorem byPhase_find_aux (p : String) :
    ∀ (l : List Task) (m : List (String × List Task)),
      alistFindT p (l.foldl bucketAdd m) =
        match alistFindT p m with
        | some v => some (v ++ l.filter fun t => t.phase == p)
        | none =>
            if (l.filter fun t => t.phase == p).isEmpty then none
            else some (l.filter fun t => t.phase == p) := by
  intro l
  induction l with
  | nil =>
      intro m
      simp only [List.foldl_nil, List.filter_nil]
      cases hm : alistFindT p m with
      | some v => simp
      | none => simp
  | cons t rest ih =>
      intro m
      rw [List.foldl_cons, ih (bucketAdd m t), alistFindT_bucketAdd, List.filter_cons]
      cases hm : alistFindT p m with
      | some v =>
          by_cases h : t.phase = p
          · simp [h, hm, List.append_assoc]
          · simp [h, beq_eq_false_iff_ne.mpr h, hm]
      | none =>
          by_cases h : t.phase = p
          · simp [h, hm]
          · simp [h, beq_eq_false_iff_ne.mpr h, hm]

theorem mem_insSorted (x y : Task) : ∀ l : List Task, y ∈ insSorted x l ↔ y = x ∨ y ∈ l := by
  intro l
  induction l with
  | nil => simp [insSorted]
  | cons a rest ih =>
      unfold insSorted
      by_cases h : taskLe a x
      · rw [if_pos h]
        constructor
        · intro hm
          rcases List.mem_cons.mp hm with rfl | hm2
          · exact Or.inr (List.mem_cons_self _ _)
          · rcases ih.mp hm2 with rfl | hm3
            · exact Or.inl rfl
            · exact Or.inr (List.mem_cons_of_mem _ hm3)
        · intro hm
          rcases hm with rfl | hm2
          · exact List.mem_cons_of_mem _ (ih.mpr (Or.inl rfl))
          · rcases List.mem_cons.mp hm2 with rfl | hm3
            · exact List.mem_cons_self _ _
            · exact List.mem_cons_of_mem _ (ih.mpr (Or.inr hm3))
      · rw [if_neg h]
        constructor
        · intro hm
          rcases List.mem_cons.mp hm with rfl | hm2
          · exact Or.inl rfl
          · exact Or.inr hm2
        · intro hm
          rcases hm with rfl | hm2
          · exact List.mem_cons_self _ _
          · exact List.mem_cons_of_mem _ hm2

theorem length_insSorted (x : Task) : ∀ l : List Task, (insSorted x l).length = l.length + 1 := by
  intro l
  induction l with
  | nil => rfl
  | cons a rest ih =>
      unfold insSorted
      by_cases h : taskLe a x
      · rw [if_pos h]
        simp [ih]
      · rw [if_neg h]
        simp

theorem mem_sortTasks_aux (y : Task) :
    ∀ (l acc : List Task), y ∈ l.foldl (fun acc x => insSorted x acc) acc ↔ y ∈ acc ∨ y ∈ l := by
  intro l
  induction l with
  | nil => simp
  | cons a rest ih =>
      intro acc
      rw [List.foldl_cons, ih]
      rw [mem_insSorted]
      constructor
      · rintro ((rfl | h) | h)
        · exact Or.inr (List.mem_cons_self _ _)
        · exact Or.inl h
        · exact Or.inr (List.mem_cons_of_mem _ h)
      · rintro (h | h)
        · exact Or.inl (Or.inr h)
        · rcases List.mem_cons.mp h with rfl | h2
          · exact Or.inl (Or.inl rfl)
          · exact Or.inr h2

theorem mem_sortTasks (y : Task) (l : List Task) : y ∈ sortTasks l ↔ y ∈ l := by
  unfold sortTasks
  rw [mem_sortTasks_aux]
  simp

theorem length_sortTasks_aux :
    ∀ (l acc : List Task), (l.foldl (fun acc x => insSorted x acc) acc).length =
      acc.length + l.length := by
  intro l
  induction l with
  | nil => simp
  | cons a rest ih =>
      intro acc
      rw [List.foldl_cons, ih, length_insSorted]
      simp
      omega

theorem sortTasks_nil : sortTasks [] = [] := rfl

theorem sortTasks_eq_nil_iff (l : List Task) : sortTasks l = [] ↔ l = [] := by
  constructor
  · intro h
    have hl := congrArg List.length h
    unfold sortTasks at hl
    rw [length_sortTasks_aux] at hl
    simp at hl
    exact hl
  · rintro rfl
    rfl

/-- For the three fixed keys, the rendered bucket is the stable sort of
the tasks with exactly that phase. -/
theorem bucketSorted_eq (p : String) (hp : alistFindT p emptyBuckets = some [])
    (tasks : List Task) :
    bucketSorted p tasks = sortTasks (tasks.filter fun t => t.phase == p) := by
  unfold bucketSorted byPhase
  rw [byPhase_find_aux, hp]
  rfl

/-- For a key outside the four initial buckets, the bucket exists exactly
when some task has that phase, and then holds exactly those tasks. -/
theorem byPhase_find_new (p : String) (hp : alistFindT p emptyBuckets = none)
    (tasks : List Task) :
    alistFindT p (byPhase tasks) =
      if (tasks.filter fun t => t.phase == p).isEmpty then none
      else some (tasks.filter fun t => t.phase == p) := by
  unfold byPhase
  rw [byPhase_find_aux, hp]

/-! ## C10 — section headings appear iff the phase is inhabited -/

theorem string_data_inj {a b : String} (h : a.data = b.data) : a = b := by
  cases a
  cases b
  cases h
  rfl

theorem heading_data (p : String) : ("## " ++ p).data = '#' :: '#' :: ' ' :: p.data := by
  rw [string_data_append]
  rfl

theorem renderMdEntry_head (t : Task) :
    (renderMdEntry t).data.head? = some '-' := by
  unfold renderMdEntry
  by_cases h : t.description ≠ ""
  · rw [if_pos h]
    simp only [string_data_append]
    rfl
  · rw [if_neg h]
    simp only [string_data_append]
    rfl

theorem renderKanbanEntry_head (t : Task) :
    (renderKanbanEntry t).data.head? = some '-' := by
  unfold renderKanbanEntry
  simp only [string_data_append]
  rfl

theorem heading_ne_mdEntry (p : String) (t : Task) : ("## " ++ p) ≠ renderMdEntry t := by
  intro h
  have hd := congrArg (fun s => s.data.head?) h
  simp only [heading_data, renderMdEntry_head] at hd
  cases hd

theorem heading_ne_kanbanEntry (p : String) (t : Task) :
    ("## " ++ p) ≠ renderKanbanEntry t := by
  intro h
  have hd := congrArg (fun s => s.data.head?) h
  simp only [heading_data, renderKanbanEntry_head] at hd
  cases hd

theorem heading_ne_blank (p : String) : ("## " ++ p) ≠ "" := by
  intro h
  have hd := congrArg String.data h
  rw [heading_data] at hd
  cases hd

theorem heading_inj {p q : String} (h : ("## " ++ p) = ("## " ++ q)) : p = q := by
  have hd := congrArg String.data h
  rw [heading_data, heading_data] at hd
  injection hd with _ hd
  injection hd with _ hd
  injection hd with _ hd
  exact string_data_inj hd

theorem heading_mem_mdSection (tasks : List Task) (p q : String) :
    (("## " ++ q) ∈ mdSection tasks p) ↔ (q = p ∧ bucketSorted p tasks ≠ []) := by
  unfold mdSection
  cases hb : bucketSorted p tasks with
  | nil => simp
  | cons b bs =>
      constructor
      · intro hmem
        rcases List.mem_cons.mp hmem with heq | hmem2
        · exact ⟨heading_inj heq, by simp⟩
        · exfalso
          rcases List.mem_append.mp hmem2 with hmem3 | hmem4
          · rcases List.mem_map.mp hmem3 with ⟨t, _, ht⟩
            exact heading_ne_mdEntry q t ht.symm
          · exact heading_ne_blank q (List.mem_singleton.mp hmem4)
      · rintro ⟨rfl, _⟩
        exact List.mem_cons_self _ _

theorem heading_mem_kanbanSection (tasks : List Task) (p q : String) :
    (("## " ++ q) ∈ kanbanSection tasks p) ↔ (q = p ∧ bucketSorted p tasks ≠ []) := by
  unfold kanbanSection
  cases hb : bucketSorted p tasks with
  | nil => simp
  | cons b bs =>
      constructor
      · intro hmem
        rcases List.mem_cons.mp hmem with heq | hmem2
        · exact ⟨heading_inj heq, by simp⟩
        · exfalso
          rcases List.mem_append.mp hmem2 with hmem3 | hmem4
          · rcases List.mem_map.mp hmem3 with ⟨t, _, ht⟩
            exact heading_ne_kanbanEntry q t ht.symm
          · exact heading_ne_blank q (List.mem_singleton.mp hmem4)
      · rintro ⟨rfl, _⟩
        exact List.mem_cons_self _ _

theorem bucket_ne_nil_iff (p : String) (hp : alistFindT p emptyBuckets = some [])
    (tasks : List Task) :
    bucketSorted p tasks ≠ [] ↔ ∃ t ∈ tasks, t.phase = p := by
  rw [bucketSorted_eq p hp tasks]
  constructor
  · intro h
    have hf : tasks.filter (fun t => t.phase == p) ≠ [] := by
      intro h0
      exact h (by rw [h0]; rfl)
    rcases List.exists_mem_of_ne_nil _ hf with ⟨t, ht⟩
    have := List.mem_filter.mp ht
    exact ⟨t, this.1, beq_iff_eq.mp this.2⟩
  · rintro ⟨t, ht, hph⟩
    intro h0
    have : t ∈ sortTasks (tasks.filter fun t => t.phase == p) :=
      (mem_sortTasks _ _).mpr (List.mem_filter.mpr ⟨ht, beq_iff_eq.mpr hph⟩)
    rw [h0] at this
    cases this

theorem heading_notin_mdPreamble (q : String) (hq : q = "Now" ∨ q = "Next" ∨ q = "Later") :
    ("## " ++ q) ∉ mdPreamble := by
  rcases hq with rfl | rfl | rfl <;> decide

theorem heading_notin_kanbanPreamble (q : String)
    (hq : q = "Now" ∨ q = "Next" ∨ q = "Later") :
    ("## " ++ q) ∉ kanbanPreamble := by
  rcases hq with rfl | rfl | rfl <;> decide

theorem heading_mem_mdBlocks (tasks : List Task) (q : String)
    (hq : q = "Now" ∨ q = "Next" ∨ q = "Later") :
    (("## " ++ q) ∈ mdBlocks tasks) ↔ ∃ t ∈ tasks, t.phase = q := by
  have hfind : alistFindT q emptyBuckets = some [] := by
    rcases hq with rfl | rfl | rfl <;> rfl
  constructor
  · intro hmem
    unfold mdBlocks at hmem
    rcases List.mem_append.mp hmem with hmem1 | hmem4
    rcases List.mem_append.mp hmem1 with hmem2 | hmem3
    rcases List.mem_append.mp hmem2 with hpre | hnow
    · exact absurd hpre (heading_notin_mdPreamble q hq)
    · rcases (heading_mem_mdSection tasks "Now" q).mp hnow with ⟨rfl, hne⟩
      exact (bucket_ne_nil_iff _ hfind tasks).mp hne
    · rcases (heading_mem_mdSection tasks "Next" q).mp hmem3 with ⟨rfl, hne⟩
      exact (bucket_ne_nil_iff _ hfind tasks).mp hne
    · rcases (heading_mem_mdSection tasks "Later" q).mp hmem4 with ⟨rfl, hne⟩
      exact (bucket_ne_nil_iff _ hfind tasks).mp hne
  · intro hex
    have hne : bucketSorted q tasks ≠ [] := (bucket_ne_nil_iff _ hfind tasks).mpr hex
    have hsec : ("## " ++ q) ∈ mdSection tasks q :=
      (heading_mem_mdSection tasks q q).mpr ⟨rfl, hne⟩
    unfold mdBlocks
    rcases hq with rfl | rfl | rfl
    · exact List.mem_append_left _ (List.mem_append_left _ (List.mem_append_right _ hsec))
    · exact List.mem_append_left _ (List.mem_append_right _ hsec)
    · exact List.mem_append_right _ hsec

theorem heading_mem_kanbanBlocks (tasks : List Task) (q : String)
    (hq : q = "Now" ∨ q = "Next" ∨ q = "Later") :
    (("## " ++ q) ∈ kanbanBlocks tasks) ↔ ∃ t ∈ tasks, t.phase = q := by
  have hfind : alistFindT q emptyBuckets = some [] := by
    rcases hq with rfl | rfl | rfl <;> rfl
  constructor
  · intro hmem
    unfold kanbanBlocks at hmem
    rcases List.mem_append.mp hmem with hmem1 | hmem4
    rcases List.mem_append.mp hmem1 with hmem2 | hmem3
    rcases List.mem_append.mp hmem2 with hpre | hnow
    · exact absurd hpre (heading_notin_kanbanPreamble q hq)
    · rcases (heading_mem_kanbanSection tasks "Now" q).mp hnow with ⟨rfl, hne⟩
      exact (bucket_ne_nil_iff _ hfind tasks).mp hne
    · rcases (heading_mem_kanbanSection tasks "Next" q).mp hmem3 with ⟨rfl, hne⟩
      exact (bucket_ne_nil_iff _ hfind tasks).mp hne
    · rcases (heading_mem_kanbanSection tasks "Later" q).mp hmem4 with ⟨rfl, hne⟩
      exact (bucket_ne_nil_iff _ hfind tasks).mp hne
  · intro hex
    have hne : bucketSorted q tasks ≠ [] := (bucket_ne_nil_iff _ hfind tasks).mpr hex
    have hsec : ("## " ++ q) ∈ kanbanSection tasks q :=
      (heading_mem_kanbanSection tasks q q).mpr ⟨rfl, hne⟩
    unfold kanbanBlocks
    rcases hq with rfl | rfl | rfl
    · exact List.mem_append_left _ (List.mem_append_left _ (List.mem_append_right _ hsec))
    · exact List.mem_append_left _ (List.mem_append_right _ hsec)
    · exact List.mem_append_right _ hsec

theorem mdSection_empty (tasks : List Task) (p : String)
    (hp : alistFindT p emptyBuckets = some [])
    (h : ∀ t ∈ tasks, t.phase ≠ p) : mdSection tasks p = [] := by
  unfold mdSection
  have hb : bucketSorted p tasks = [] := by
    rw [bucketSorted_eq p hp tasks]
    rw [sortTasks_eq_nil_iff]
    rw [List.filter_eq_nil_iff]
    intro t ht
    simp [beq_eq_false_iff_ne.mpr (h t ht)]
  rw [hb]

theorem kanbanSection_empty (tasks : List Task) (p : String)
    (hp : alistFindT p emptyBuckets = some [])
    (h : ∀ t ∈ tasks, t.phase ≠ p) : kanbanSection tasks p = [] := by
  unfold kanbanSection
  have hb : bucketSorted p tasks = [] := by
    rw [bucketSorted_eq p hp tasks]
    rw [sortTasks_eq_nil_iff]
    rw [List.filter_eq_nil_iff]
    intro t ht
    simp [beq_eq_false_iff_ne.mpr (h t ht)]
  rw [hb]

/-- Claim C10: in both rendered documents, the section heading for each of
the three named phases is emitted exactly when some normalized task has
that exact phase; and a task list touching none of the three phases
leaves both documents as exactly their fixed preamble text. -/
theorem c10_headings (tasks : List Task) :
    (("## Now" ∈ mdBlocks tasks ↔ ∃ t ∈ tasks, t.phase = "Now") ∧
     ("## Next" ∈ mdBlocks tasks ↔ ∃ t ∈ tasks, t.phase = "Next") ∧
     ("## Later" ∈ mdBlocks tasks ↔ ∃ t ∈ tasks, t.phase = "Later")) ∧
    (("## Now" ∈ kanbanBlocks tasks ↔ ∃ t ∈ tasks, t.phase = "Now") ∧
     ("## Next" ∈ kanbanBlocks tasks ↔ ∃ t ∈ tasks, t.phase = "Next") ∧
     ("## Later" ∈ kanbanBlocks tasks ↔ ∃ t ∈ tasks, t.phase = "Later")) ∧
    ((∀ t ∈ tasks, t.phase ≠ "Now" ∧ t.phase ≠ "Next" ∧ t.phase ≠ "Later") →
      mdText tasks =
        "# Roadmap\n\nSource: `blackbox_roadmap_with_backlog.json`. Phases reflect delivery priority. Update with `python3 scripts/roadmap/generate.py`.\n\n" ∧
      kanbanText tasks =
        "# Roadmap Kanban\n\nVisual grouping by phase. Use alongside `docs/ROADMAP.md`.\n\n") := by
  refine ⟨⟨?_, ?_, ?_⟩, ⟨?_, ?_, ?_⟩, ?_⟩
  · exact heading_mem_mdBlocks tasks "Now" (Or.inl rfl)
  · exact heading_mem_mdBlocks tasks "Next" (Or.inr (Or.inl rfl))
  · exact heading_mem_mdBlocks tasks "Later" (Or.inr (Or.inr rfl))
  · exact heading_mem_kanbanBlocks tasks "Now" (Or.inl rfl)
  · exact heading_mem_kanbanBlocks tasks "Next" (Or.inr (Or.inl rfl))
  · exact heading_mem_kanbanBlocks tasks "Later" (Or.inr (Or.inr rfl))
  · intro h
    have h1 : mdSection tasks "Now" = [] :=
      mdSection_empty tasks "Now" rfl fun t ht => (h t ht).1
    have h2 : mdSection tasks "Next" = [] :=
      mdSection_empty tasks "Next" rfl fun t ht => (h t ht).2.1
    have h3 : mdSection tasks "Later" = [] :=
      mdSection_empty tasks "Later" rfl fun t ht => (h t ht).2.2
    have k1 : kanbanSection tasks "Now" = [] :=
      kanbanSection_empty tasks "Now" rfl fun t ht => (h t ht).1
    have k2 : kanbanSection tasks "Next" = [] :=
      kanbanSection_empty tasks "Next" rfl fun t ht => (h t ht).2.1
    have k3 : kanbanSection tasks "Later" = [] :=
      kanbanSection_empty tasks "Later" rfl fun t ht => (h t ht).2.2
    constructor
    · unfold mdText mdBlocks
      rw [h1, h2, h3]
      rfl
    · unfold kanbanText kanbanBlocks
      rw [k1, k2, k3]
      rfl

/-- Witness for C10: one `Now` task makes the `## Now` heading appear and
no `## Next` heading; no tasks leaves the fixed preamble only. -/
theorem c10_headings_witness :
    ("## Now" ∈ mdBlocks [⟨"a", "", "Now", "To Do"⟩]) ∧
    ("## Next" ∉ mdBlocks [⟨"a", "", "Now", "To Do"⟩]) ∧
    mdText [] =
      "# Roadmap\n\nSource: `blackbox_roadmap_with_backlog.json`. Phases reflect delivery priority. Update with `python3 scripts/roadmap/generate.py`.\n\n" := by
  refine ⟨?_, ?_, ?_⟩
  · exact ((c10_headings [⟨"a", "", "Now", "To Do"⟩]).1.1).mpr
      ⟨⟨"a", "", "Now", "To Do"⟩, List.mem_singleton.mpr rfl, rfl⟩
  · intro hmem
    rcases ((c10_headings [⟨"a", "", "Now", "To Do"⟩]).1.2.1).mp hmem with ⟨t, ht, hph⟩
    rw [List.mem_singleton.mp ht] at hph
    exact absurd hph (by decide)
  · exact ((c10_headings []).2.2 (fun t ht => absurd ht (List.not_mem_nil t))).1

/-! ## C3 — unrecognized phase labels -/

/-- Claim C3 is false on the code: a `Someday` record is NOT grouped under
the `Unassigned` bucket — `by_phase.setdefault` gives it its own
`Someday` bucket, and the `Unassigned` bucket stays empty. -/
theorem c3_counterexample :
    alistFindT "Unassigned" (byPhase [⟨"s", "", "Someday", "To Do"⟩]) = some [] ∧
    alistFindT "Someday" (byPhase [⟨"s", "", "Someday", "To Do"⟩]) =
      some [⟨"s", "", "Someday", "To Do"⟩] :=
  ⟨rfl, rfl⟩

/-- The predicate selecting tasks whose phase has a rendered section. -/
def recognizedPhase (t : Task) : Bool :=
  t.phase == "Now" || t.phase == "Next" || t.phase == "Later"

theorem filter_subpred (pr q : Task → Bool) (himp : ∀ x, pr x = true → q x = true) :
    ∀ l : List Task, (l.filter q).filter pr = l.filter pr := by
  intro l
  induction l with
  | nil => rfl
  | cons a rest ih =>
      cases hq : q a with
      | true =>
          rw [List.filter_cons, if_pos (by simp [hq]), List.filter_cons, List.filter_cons]
          cases hp : pr a with
          | true => simp [ih]
          | false => simp [ih]
      | false =>
          have hp : pr a = false := by
            cases hpr : pr a with
            | true => rw [himp a hpr] at hq; cases hq
            | false => rfl
          rw [List.filter_cons, if_neg (by simp [hq]), List.filter_cons,
            if_neg (by simp [hp]), ih]

theorem bucketSorted_filter_inv (p : String) (hq : p = "Now" ∨ p = "Next" ∨ p = "Later")
    (tasks : List Task) :
    bucketSorted p (tasks.filter recognizedPhase) = bucketSorted p tasks := by
  have hfind : alistFindT p emptyBuckets = some [] := by
    rcases hq with rfl | rfl | rfl <;> rfl
  rw [bucketSorted_eq p hfind, bucketSorted_eq p hfind]
  rw [filter_subpred _ recognizedPhase]
  intro x hx
  have hph : x.phase = p := beq_iff_eq.mp hx
  unfold recognizedPhase
  rcases hq with rfl | rfl | rfl <;> simp [hph]

theorem mdSection_filter_inv (p : String) (hq : p = "Now" ∨ p = "Next" ∨ p = "Later")
    (tasks : List Task) :
    mdSection (tasks.filter recognizedPhase) p = mdSection tasks p := by
  unfold mdSection
  rw [bucketSorted_filter_inv p hq]

theorem kanbanSection_filter_inv (p : String) (hq : p = "Now" ∨ p = "Next" ∨ p = "Later")
    (tasks : List Task) :
    kanbanSection (tasks.filter recognizedPhase) p = kanbanSection tasks p := by
  unfold kanbanSection
  rw [bucketSorted_filter_inv p hq]

/-- Both documents depend only on the tasks with a recognized phase:
deleting every unrecognized-phase task changes neither blocks list. -/
theorem mdBlocks_filter_inv (tasks : List Task) :
    mdBlocks (tasks.filter recognizedPhase) = mdBlocks tasks := by
  unfold mdBlocks
  rw [mdSection_filter_inv "Now" (Or.inl rfl),
    mdSection_filter_inv "Next" (Or.inr (Or.inl rfl)),
    mdSection_filter_inv "Later" (Or.inr (Or.inr rfl))]

theorem kanbanBlocks_filter_inv (tasks : List Task) :
    kanbanBlocks (tasks.filter recognizedPhase) = kanbanBlocks tasks := by
  unfold kanbanBlocks
  rw [kanbanSection_filter_inv "Now" (Or.inl rfl),
    kanbanSection_filter_inv "Next" (Or.inr (Or.inl rfl)),
    kanbanSection_filter_inv "Later" (Or.inr (Or.inr rfl))]

/-- Claim C3 as amended: a record with an unrecognized phase label such as
`Someday` is grouped under its own verbatim-named bucket (NOT under
`Unassigned`, which does not receive it), is absent from both document
artifacts — each document equals the one generated from only the
`Now`/`Next`/`Later` tasks — and appears with its verbatim phase value in
both tabular exports. -/
theorem c3_amended (tasks : List Task) (t : Task) (ht : t ∈ tasks)
    (hph : t.phase = "Someday") :
    (∃ b, alistFindT "Someday" (byPhase tasks) = some b ∧ t ∈ b) ∧
    (∀ b, alistFindT "Unassigned" (byPhase tasks) = some b → t ∉ b) ∧
    mdBlocks (tasks.filter recognizedPhase) = mdBlocks tasks ∧
    kanbanBlocks (tasks.filter recognizedPhase) = kanbanBlocks tasks ∧
    recognizedPhase t = false ∧
    [t.title, t.description, t.phase, t.status] ∈ genCsvRows tasks ∧
    [t.title, (if t.description ≠ "" then t.description else "Imported from roadmap."),
      "phase:" ++ t.phase ++ "," ++ "status:" ++ t.status] ∈ issuesCsvRows tasks := by
  have htf : t ∈ tasks.filter fun x => x.phase == "Someday" :=
    List.mem_filter.mpr ⟨ht, beq_iff_eq.mpr hph⟩
  refine ⟨?_, ?_, mdBlocks_filter_inv tasks, kanbanBlocks_filter_inv tasks, ?_, ?_, ?_⟩
  · refine ⟨tasks.filter fun x => x.phase == "Someday", ?_, htf⟩
    rw [byPhase_find_new "Someday" rfl tasks]
    rw [if_neg ?_]
    intro hempty
    rw [List.isEmpty_iff] at hempty
    rw [hempty] at htf
    cases htf
  · intro b hb hmem
    unfold byPhase at hb
    rw [byPhase_find_aux] at hb
    have : alistFindT "Unassigned" emptyBuckets = some [] := rfl
    rw [this] at hb
    cases hb
    have := List.mem_filter.mp hmem
    have hph2 : t.phase = "Unassigned" := beq_iff_eq.mp this.2
    rw [hph] at hph2
    exact absurd hph2 (by decide)
  · unfold recognizedPhase
    rw [hph]
    rfl
  · exact List.mem_cons_of_mem _ (List.mem_map.mpr ⟨t, ht, rfl⟩)
  · exact List.mem_cons_of_mem _ (List.mem_map.mpr ⟨t, ht, rfl⟩)

/-- Witness for the amended C3 at a concrete one-task list. -/
theorem c3_amended_witness :
    (∃ b, alistFindT "Someday" (byPhase [⟨"s", "", "Someday", "To Do"⟩]) = some b ∧
      (⟨"s", "", "Someday", "To Do"⟩ : Task) ∈ b) ∧
    mdBlocks (([⟨"s", "", "Someday", "To Do"⟩] : List Task).filter recognizedPhase) =
      mdBlocks [⟨"s", "", "Someday", "To Do"⟩] ∧
    ["s", "", "Someday", "To Do"] ∈ genCsvRows [⟨"s", "", "Someday", "To Do"⟩] := by
  have h := c3_amended [⟨"s", "", "Someday", "To Do"⟩] ⟨"s", "", "Someday", "To Do"⟩
    (List.mem_singleton.mpr rfl) rfl
  exact ⟨h.1, h.2.2.1, h.2.2.2.2.2.1⟩

/-! ## C8 — CSV round-trip -/

theorem dropNl_nl (l : List Char) : dropNl ('\n' :: l) = l := by
  simp [dropNl]

theorem csvAux_unq_step (c : Char) (rest : List Char) (f : List Char) (r : List String)
    (h1 : c ≠ '\r') (h2 : c ≠ '\n') (h3 : c ≠ ',') (h4 : ¬(c = quoteChar ∧ f = [])) :
    csvParseAux .unq (c :: rest) f r = csvParseAux .unq rest (f ++ [c]) r := by
  rw [csvParseAux]
  rw [if_neg h1, if_neg h2, if_neg h3, if_neg h4]

theorem csvAux_unq_comma (rest : List Char) (f : List Char) (r : List String) :
    csvParseAux .unq (',' :: rest) f r = csvParseAux .unq rest [] (r ++ [String.mk f]) := by
  rw [csvParseAux]
  rw [if_neg (by decide), if_neg (by decide), if_pos rfl]

theorem csvAux_unq_crlf (rest : List Char) (f : List Char) (r : List String) :
    csvParseAux .unq ('\r' :: '\n' :: rest) f r =
      (r ++ [String.mk f]) :: csvParseAux .unq rest [] [] := by
  rw [csvParseAux]
  rw [if_pos rfl, dropNl_nl]

theorem csvAux_unq_quote (rest : List Char) (r : List String) :
    csvParseAux .unq (quoteChar :: rest) [] r = csvParseAux .qtd rest [] r := by
  rw [csvParseAux]
  rw [if_neg (by decide), if_neg (by decide), if_neg (by decide), if_pos ⟨rfl, rfl⟩]

theorem csvAux_qtd_quote (rest : List Char) (f : List Char) (r : List String) :
    csvParseAux .qtd (quoteChar :: rest) f r = csvParseAux .qend rest f r := by
  rw [csvParseAux]
  rw [if_pos rfl]

theorem csvAux_qtd_step (c : Char) (rest : List Char) (f : List Char) (r : List String)
    (h : c ≠ quoteChar) :
    csvParseAux .qtd (c :: rest) f r = csvParseAux .qtd rest (f ++ [c]) r := by
  rw [csvParseAux]
  rw [if_neg h]

theorem csvAux_qend_comma (rest : List Char) (f : List Char) (r : List String) :
    csvParseAux .qend (',' :: rest) f r = csvParseAux .unq rest [] (r ++ [String.mk f]) := by
  rw [csvParseAux]
  rw [if_neg (by decide), if_neg (by decide), if_neg (by decide), if_pos rfl]

theorem csvAux_qend_crlf (rest : List Char) (f : List Char) (r : List String) :
    csvParseAux .qend ('\r' :: '\n' :: rest) f r =
      (r ++ [String.mk f]) :: csvParseAux .unq rest [] [] := by
  rw [csvParseAux]
  rw [if_neg (by decide), if_pos rfl, dropNl_nl]

theorem csvAux_unq_content :
    ∀ (cs rest f : List Char) (r : List String),
      (∀ c ∈ cs, c ≠ ',' ∧ c ≠ quoteChar ∧ c ≠ '\r' ∧ c ≠ '\n') →
      csvParseAux .unq (cs ++ rest) f r = csvParseAux .unq rest (f ++ cs) r := by
  intro cs
  induction cs with
  | nil =>
      intro rest f r h
      simp
  | cons c cs ih =>
      intro rest f r h
      rcases h c (List.mem_cons_self c cs) with ⟨hc1, hc2, hc3, hc4⟩
      rw [List.cons_append]
      rw [csvAux_unq_step c (cs ++ rest) f r hc3 hc4 hc1 (fun hx => hc2 hx.1)]
      rw [ih rest (f ++ [c]) r (fun x hx => h x (List.mem_cons_of_mem c hx))]
      simp

theorem csvAux_qtd_content :
    ∀ (cs rest f : List Char) (r : List String),
      csvParseAux .qtd (escapeQuotes cs ++ rest) f r = csvParseAux .qtd rest (f ++ cs) r := by
  intro cs
  induction cs with
  | nil =>
      intro rest f r
      simp [escapeQuotes]
  | cons c cs ih =>
      intro rest f r
      unfold escapeQuotes
      rw [List.flatMap_cons]
      by_cases hc : c = quoteChar
      · subst hc
        rw [if_pos rfl]
        simp only [List.cons_append, List.nil_append]
        rw [csvAux_qtd_quote]
        rw [csvParseAux]
        rw [if_pos rfl]
        have := ih rest (f ++ [quoteChar]) r
        unfold escapeQuotes at this
        rw [this]
        simp
      · rw [if_neg hc]
        simp only [List.cons_append, List.nil_append]
        rw [csvAux_qtd_step c _ f r hc]
        have := ih rest (f ++ [c]) r
        unfold escapeQuotes at this
        rw [this]
        simp

theorem notSpec_of_not_needsQuote {s : String} (h : needsQuote s = false) :
    ∀ c ∈ s.data, c ≠ ',' ∧ c ≠ quoteChar ∧ c ≠ '\r' ∧ c ≠ '\n' := by
  intro c hc
  unfold needsQuote at h
  rw [List.any_eq_false] at h
  have hcc := h c hc
  simp only [Bool.or_eq_true, decide_eq_true_eq, not_or] at hcc
  obtain ⟨⟨⟨h1, h2⟩, h3⟩, h4⟩ := hcc
  exact ⟨h1, h2, h3, h4⟩

theorem csvAux_field_comma (s : String) (rest : List Char) (r : List String) :
    csvParseAux .unq (encodeField s ++ ',' :: rest) [] r =
      csvParseAux .unq rest [] (r ++ [s]) := by
  unfold encodeField
  cases hq : needsQuote s with
  | false =>
      rw [if_neg (by simp [hq])]
      rw [csvAux_unq_content s.data (',' :: rest) [] r (notSpec_of_not_needsQuote hq)]
      rw [csvAux_unq_comma]
      rw [List.nil_append, string_mk_data]
  | true =>
      rw [if_pos (by simp [hq])]
      simp only [List.cons_append]
      rw [csvAux_unq_quote, List.append_assoc, List.singleton_append]
      rw [csvAux_qtd_content s.data (quoteChar :: ',' :: rest) [] r]
      rw [csvAux_qtd_quote]
      rw [csvAux_qend_comma]
      rw [List.nil_append, string_mk_data]

theorem csvAux_field_crlf (s : String) (rest : List Char) (r : List String) :
    csvParseAux .unq (encodeField s ++ '\r' :: '\n' :: rest) [] r =
      (r ++ [s]) :: csvParseAux .unq rest [] [] := by
  unfold encodeField
  cases hq : needsQuote s with
  | false =>
      rw [if_neg (by simp [hq])]
      rw [csvAux_unq_content s.data ('\r' :: '\n' :: rest) [] r (notSpec_of_not_needsQuote hq)]
      rw [csvAux_unq_crlf]
      rw [List.nil_append, string_mk_data]
  | true =>
      rw [if_pos (by simp [hq])]
      simp only [List.cons_append]
      rw [csvAux_unq_quote, List.append_assoc, List.singleton_append]
      rw [csvAux_qtd_content s.data (quoteChar :: '\r' :: '\n' :: rest) [] r]
      rw [csvAux_qtd_quote]
      rw [csvAux_qend_crlf]
      rw [List.nil_append, string_mk_data]

theorem csvAux_row :
    ∀ (fs : List String), fs ≠ [] → ∀ (rest : List Char) (r : List String),
      csvParseAux .unq (encodeRow fs ++ rest) [] r = (r ++ fs) :: csvParseAux .unq rest [] [] := by
  intro fs
  induction fs with
  | nil => intro h; exact absurd rfl h
  | cons x fs ih =>
      intro _ rest r
      cases fs with
      | nil =>
          show csvParseAux .unq ((encodeField x ++ ['\r', '\n']) ++ rest) [] r = _
          rw [List.append_assoc]
          show csvParseAux .unq (encodeField x ++ '\r' :: '\n' :: rest) [] r = _
          rw [csvAux_field_crlf]
      | cons y fs2 =>
          show csvParseAux .unq ((encodeField x ++ ',' :: encodeRow (y :: fs2)) ++ rest) [] r = _
          rw [List.append_assoc, List.cons_append]
          rw [csvAux_field_comma]
          rw [ih (by simp) rest (r ++ [x])]
          simp

theorem csvParse_encodeCsv :
    ∀ rows : List (List String), (∀ row ∈ rows, row ≠ []) →
      csvParse (encodeCsv rows) = rows := by
  intro rows
  induction rows with
  | nil =>
      intro h
      unfold csvParse encodeCsv
      simp only [List.map_nil, List.flatten_nil]
      rw [csvParseAux]
      rfl
  | cons row rest ih =>
      intro h
      unfold csvParse encodeCsv
      rw [List.map_cons, List.flatten_cons]
      rw [csvAux_row row (h row (List.mem_cons_self row rest))]
      rw [List.nil_append]
      have := ih fun x hx => h x (List.mem_cons_of_mem row hx)
      unfold csvParse encodeCsv at this
      rw [this]

/-- Claim C8: writing the generic tabular export (`docs/roadmap.csv`, with
the Python `csv` module QUOTE_MINIMAL dialect) and re-parsing it as CSV
reproduces the header row followed by exactly one row per task with the
same `(title, description, phase, status)` tuples, in the original list
order — for every task list, including fields holding commas, quotes and
newlines. -/
theorem c8_csv_roundtrip (tasks : List Task) :
    csvParse (genCsvText tasks) = genCsvRows tasks := by
  unfold genCsvText
  apply csvParse_encodeCsv
  intro row hrow
  unfold genCsvRows at hrow
  rcases List.mem_cons.mp hrow with rfl | hmem
  · simp
  · rcases List.mem_map.mp hmem with ⟨t, _, rfl⟩
    simp

end Roadmap
